import Mathlib

/-!
Verification development for the Abnormalie anomaly-scoring engine
(`src/abnormalie.js`).

The JavaScript source is shallowly embedded as follows.

* JS numbers occurring in feature vectors, split values and path lengths are
  exact rationals (`ℚ`); every arithmetic operation the embedded code performs
  on them (comparison, min, max, `+`, `*`) is exact in both JS doubles and `ℚ`
  for the magnitudes involved, except where a comment notes otherwise.
* Anomaly scores (`2 ** (-avg / c(n))`, which involves `Math.log`) are real
  numbers (`ℝ`).
* A JS exception is `Option.none`: a function that can throw returns
  `Option α`.  The single `try { ... } catch {}` wrapping the whole of
  `analyzeNetworkRequest` is modelled by returning, at the point of failure,
  the state as mutated so far, with all remaining steps of that ingest
  skipped.
* `Math.random()` draws are an oracle (`Rand`): every concrete execution of
  the JS corresponds to some oracle assignment.  `Math.floor(Math.random()*n)`,
  which lies in `[0, n)` for `n > 0` and is `0` for `n = 0`, is modelled by
  reducing an arbitrary oracle value mod `n` (mod `max n 1` where `n` can
  be `0`).
-/

namespace Abnormalie

/-- A feature vector: the JS code represents it as a plain array of numbers
(11 entries when produced by `extractFeatures`). -/
abbrev FV := List ℚ

/-- An isolation-tree node, as built by `IsolationForest.buildTree`
(src/abnormalie.js:83-97): a leaf object `{size}` or an internal node
`{feature, splitValue, left, right}`. -/
inductive Tree where
  | leaf (size : ℕ) : Tree
  | node (feature : ℕ) (splitValue : ℚ) (left right : Tree) : Tree
deriving DecidableEq

/-- The `IsolationForest` object (src/abnormalie.js:58-129): configuration
plus the list of trees filled in by `train`. -/
structure IsolationForestModel where
  numTrees : ℕ
  sampleSize : ℕ
  maxDepth : ℕ
  trees : List Tree
deriving DecidableEq

/-- `IsolationForest.pathLength` (src/abnormalie.js:99-107).
`tree.size <= 1` is `false` at an internal node (`tree.size` is `undefined`,
and `undefined <= 1` is `false`), so the walk proceeds by comparing
`dataPoint[tree.feature]` with `tree.splitValue`.  At a leaf whose stored
`size` is ≥ 2 the same test fails, `dataPoint[tree.feature]` is
`dataPoint[undefined] = undefined`, `undefined < tree.splitValue` is `false`,
and the code recurses into `tree.right`, which is `undefined`; the recursive
call then throws a `TypeError` reading `undefined.size`.  That crash is
`none`.  A missing index `dataPoint[f]` is JS `undefined`, and
`undefined < x` is `false`, sending the walk right. -/
def pathLength (dataPoint : FV) : Tree → Option ℕ
  | .leaf size => if size ≤ 1 then some 1 else none
  | .node feature splitValue left right =>
      match dataPoint.get? feature with
      | some x =>
          if x < splitValue then (pathLength dataPoint left).map (· + 1)
          else (pathLength dataPoint right).map (· + 1)
      | none => (pathLength dataPoint right).map (· + 1)

/-- `IsolationForest.c` (src/abnormalie.js:125-128): the path-length
normalisation constant, with `Math.log` as the real logarithm. -/
noncomputable def cFun (n : ℕ) : ℝ :=
  if n ≤ 1 then 1 else 2 * (Real.log ((n : ℝ) - 1) + 0.5772) - 2 * ((n : ℝ) - 1) / n

/-- The average path length computed by `IsolationForest.predict`
(src/abnormalie.js:76-80) before normalisation: map `pathLength` over the
trees (an exception in any tree propagates: `none`) and divide the sum by
`this.numTrees`. -/
def predictAvg (m : IsolationForestModel) (dataPoint : FV) : Option ℚ :=
  (m.trees.mapM (pathLength dataPoint)).map
    (fun lens => ((lens.sum : ℚ)) / (m.numTrees : ℚ))

/-- The final score of `IsolationForest.predict`: `2 ** (-avg / c(n))`, where
`n` is the length of the live request history at prediction time. -/
noncomputable def predictScore (m : IsolationForestModel) (histLen : ℕ)
    (dataPoint : FV) : Option ℝ :=
  (predictAvg m dataPoint).map (fun avg => (2 : ℝ) ^ (-((avg : ℝ)) / cFun histLen))

/-- `Math.min(...values)` over a nonempty list (the empty case, JS `Infinity`,
is unreachable: `buildTree` only reads values when `data.length ≥ 2`). -/
def listMin : List ℚ → ℚ
  | [] => 0
  | x :: xs => xs.foldl min x

/-- `Math.max(...values)` over a nonempty list (empty case unreachable). -/
def listMax : List ℚ → ℚ
  | [] => 0
  | x :: xs => xs.foldl max x

/-- `IsolationForest.buildTree` (src/abnormalie.js:83-97).  `data` is a list
of JS values each of which is a feature vector or `undefined`
(`getRandomSample` produces `undefined` entries exactly when the training
data is empty).  Reading `data[0].length` of an `undefined` entry, or
`point[feature]` of one inside `getRandomValue`'s `data.map`, throws: both
are covered by the `data.mapM id` step (`none` when any entry is
`undefined`; `data[0]` is read first and the uses never mix defined and
undefined entries).  `Math.floor(Math.random() * data[0].length)` is
`fa path % p0.length` (for the 11-field vectors of this program
`p0.length = 11 > 0`; `% 0` would differ from JS but is unreachable there).
`q.getD feature 0` is `point[feature]`, in range for the uniform-length
vectors this program builds trees from.  `ra path` is the `Math.random()`
draw of `getRandomValue` (src/abnormalie.js:119-122); the split value is
`min + ra * (max - min)`. -/
def buildTreeFuel (fa : List Bool → ℕ) (ra : List Bool → ℚ) (maxDepth : ℕ)
    (fuel : ℕ) (data : List (Option FV)) (depth : ℕ) (path : List Bool) :
    Option Tree :=
  if data.length ≤ 1 ∨ maxDepth ≤ depth then some (.leaf data.length)
  else
    match fuel with
    | 0 => some (.leaf data.length)
    | fuel' + 1 =>
        match data.mapM id with
        | none => none
        | some pts =>
          let p0 : FV := pts.headD []
          let feature := fa path % p0.length
          let values := pts.map (fun q => q.getD feature 0)
          let mn := listMin values
          let mx := listMax values
          let splitValue := mn + ra path * (mx - mn)
          let lft := data.filter (fun p => p.elim false (fun q => decide (q.getD feature 0 < splitValue)))
          let rgt := data.filter (fun p => p.elim false (fun q => decide (splitValue ≤ q.getD feature 0)))
          match buildTreeFuel fa ra maxDepth fuel' lft (depth + 1) (path ++ [false]),
                buildTreeFuel fa ra maxDepth fuel' rgt (depth + 1) (path ++ [true]) with
          | some l, some r => some (.node feature splitValue l r)
          | _, _ => none

/-- `IsolationForest.buildTree`, entry point: the recursion of the source is
on `depth` bounded by `maxDepth`, realised here through the structural fuel
`maxDepth - depth` of `buildTreeFuel` (the fuel is positive whenever the
recursive case is entered, so the `fuel = 0` branch of `buildTreeFuel` is
unreachable from here; `buildTree_recurrence` below proves this definition
satisfies the source's recurrence verbatim). -/
def buildTree (fa : List Bool → ℕ) (ra : List Bool → ℚ) (maxDepth : ℕ)
    (data : List (Option FV)) (depth : ℕ) (path : List Bool) : Option Tree :=
  buildTreeFuel fa ra maxDepth (maxDepth - depth) data depth path

/-- `IsolationForest.getRandomSample` (src/abnormalie.js:110-116): draw
`sampleSize` entries `data[Math.floor(Math.random() * data.length)]` with
replacement.  For empty `data` every draw is `data[0] = undefined` (`none`);
for nonempty `data` the index `idx i % data.length` ranges over exactly the
indices JS can draw. -/
def getRandomSample (idx : ℕ → ℕ) (data : List FV) (sampleSize : ℕ) :
    List (Option FV) :=
  (List.range sampleSize).map (fun i => data.get? (idx i % max data.length 1))

/-- The `Math.random()` streams consumed by one `train` call: `featAt i` and
`splitAt i` feed the feature / split draws of tree `i` (indexed by the node's
root path), `sampleAt i` feeds its bootstrap sample. -/
structure Rand where
  featAt : ℕ → List Bool → ℕ
  splitAt : ℕ → List Bool → ℚ
  sampleAt : ℕ → ℕ → ℕ

/-- `IsolationForest.train` (src/abnormalie.js:67-73): build `numTrees` trees
from independent bootstrap samples, pushing each one.  An exception while
building tree `i` leaves the trees built so far in place (the forest object's
`trees` array has been filled up to `i`) and aborts the loop: the `Bool` is
`false` exactly when the loop threw. -/
def buildTrees (rnd : Rand) (numTrees sampleSize maxDepth : ℕ)
    (data : List FV) : List Tree × Bool :=
  (List.range numTrees).foldl
    (fun acc i =>
      match acc with
      | (ts, false) => (ts, false)
      | (ts, true) =>
        match buildTree (rnd.featAt i) (rnd.splitAt i) maxDepth
            (getRandomSample (rnd.sampleAt i) data sampleSize) 0 [] with
        | some t => (ts ++ [t], true)
        | none => (ts, false))
    ([], true)

/-- `url.split("?")[0]`: the text before the first `?` (the whole string when
there is no `?`). -/
def jsSplitFirst (url : String) : String := (url.splitOn "?").headD ""

/-- `url.split("?")[1] || ""`: the text between the first and second `?`,
or `""` when there is no `?`. -/
def jsSplitSecond (url : String) : String := ((url.splitOn "?").drop 1).headD ""

/-- The pieces of a parsed URL that the source reads: `hostname`, `pathname`,
the raw query, and the serialised `href`. -/
structure ParsedUrl where
  hostname : String
  pathname : String
  search : String
  href : String
deriving DecidableEq

/-- Modelled from the spec: `new URL(url)` is a host (WHATWG) builtin, not
part of src/.  The model covers absolute `http`/`https` URLs of the shape
`scheme://host[/path][?query]` with a nonempty host, which is the shape the
claims and the engine exercise; other inputs are treated as parse failures.
The one normalisation relevant to the claims is kept: an empty path
serialises as `/` in both `pathname` and `href` (so
`new URL("https://example.com").href === "https://example.com/"`).
Fragments, userinfo, ports, percent-encoding and host case-folding are not
modelled. -/
def parseUrl (url : String) : Option ParsedUrl :=
  let scheme := if "https://".isPrefixOf url then some "https"
                else if "http://".isPrefixOf url then some "http" else none
  match scheme with
  | none => none
  | some sch =>
    let rest := (url.toList).drop (sch.length + 3)
    let host := rest.takeWhile (fun c => !(c = '/' || c = '?'))
    if host = [] then none
    else
      let tl := rest.drop host.length
      let pathRaw := tl.takeWhile (fun c => !(c = '?'))
      let queryPart := tl.drop pathRaw.length
      let query := queryPart.drop 1
      let pathname := if pathRaw = [] then "/" else pathRaw.asString
      some { hostname := host.asString
             pathname := pathname
             search := query.asString
             href := sch ++ "://" ++ host.asString ++ pathname ++
               (if queryPart = [] then "" else "?" ++ query.asString) }

/-- `isValidUrl` (src/abnormalie.js:43-50): `new URL(url)` succeeds. -/
def isValidUrl (url : String) : Bool := (parseUrl url).isSome

/-- One hex digit (for JSON `\u00XX` escapes of control characters). -/
def hexDigit (n : ℕ) : Char :=
  if n < 10 then Char.ofNat (48 + n) else Char.ofNat (87 + n)

/-- `JSON.stringify` applied to one character of a string: `"` and `\` get a
backslash escape, the usual control characters get their short escapes, other
control characters get `\u00XX`, everything else is unchanged. -/
def jsonEscapeChar (ch : Char) : String :=
  if ch = '"' then "\\\""
  else if ch = '\\' then "\\\\"
  else if ch = Char.ofNat 8 then "\\b"
  else if ch = Char.ofNat 9 then "\\t"
  else if ch = Char.ofNat 10 then "\\n"
  else if ch = Char.ofNat 12 then "\\f"
  else if ch = Char.ofNat 13 then "\\r"
  else if ch.toNat < 32 then
    "\\u00" ++ String.mk [hexDigit (ch.toNat / 16), hexDigit (ch.toNat % 16)]
  else String.singleton ch

/-- `JSON.stringify(s)` for a string `s`: the escaped text wrapped in double
quotes (so the result of serialising `""` is the two-character string
consisting of two quotes). -/
def jsonStringify (s : String) : String :=
  "\"" ++ String.join (s.toList.map jsonEscapeChar) ++ "\""

/-- Query-string parsing as `URLSearchParams` does it: split on `&`, drop
empty segments, split each segment at its first `=` (no `=` gives an empty
value).  Percent-decoding and `+`-decoding are not modelled; the claims
proved here do not depend on them. -/
def parseQueryPairs (q : String) : List (String × String) :=
  ((q.splitOn "&").filter (fun s => s ≠ "")).map (fun s =>
    match s.splitOn "=" with
    | [] => ("", "")
    | k :: rest => (k, String.intercalate "=" rest))

/-- `URLSearchParams.toString()` re-serialises the parsed pairs as
`k=v&k=v&...` (feature 10 of the vector). -/
def serializeQuery (q : String) : String :=
  String.intercalate "&" ((parseQueryPairs q).map (fun p => p.1 ++ "=" ++ p.2))

/-- JS `Array.prototype.sort` with no comparator stringifies each element and
compares the strings; a `[key, value]` entry stringifies to `key ++ "," ++
value`. -/
def pairKey (p : String × String) : String := p.1 ++ "," ++ p.2

/-- Insert into a `le`-sorted list, keeping existing order among
`le`-equivalent elements (JS sort is stable). -/
def insertSorted {α : Type} (le : α → α → Bool) (x : α) : List α → List α
  | [] => [x]
  | y :: ys => if le x y then x :: y :: ys else y :: insertSorted le x ys

/-- Insertion sort: the sorted permutation `Array.prototype.sort` produces. -/
def sortBy {α : Type} (le : α → α → Bool) : List α → List α
  | [] => []
  | x :: xs => insertSorted le x (sortBy le xs)

/-- String comparison used by the default JS sort (code-unit lexicographic;
`a ≤ b` as `!(b < a)`). -/
def strLe (a b : String) : Bool := !(decide (b < a))

/-- The `paramHash` of src/abnormalie.js:182-183: parse the query into
entries, sort them as JS `Array.prototype.sort` does (stringified entries,
lexicographic) and `toString` the array (entries joined by `,`, each entry
`key ++ "," ++ value`). -/
def paramSignature (query : String) : String :=
  String.intercalate ","
    ((sortBy (fun a b => strLe (pairKey a) (pairKey b)) (parseQueryPairs query)).map pairKey)

/-- `options?.headers || {}` lookups: `headers[k] || ""` with assoc-list
lookup (JS object keys are unique). -/
def headerValue (headers : List (String × String)) (k : String) : String :=
  (headers.lookup k).getD ""

/-- The request descriptor's second argument: `{method?, headers?, body?}`.
Bodies are strings (the descriptor shape of §6 of the spec). -/
structure RequestOptions where
  method : Option String
  headers : List (String × String)
  body : Option String

/-- `extractFeatures` (src/abnormalie.js:202-220).  The `none` branch is
unreachable: the engine validates the URL before extracting (the comment on
line 206 of the source).  Note the last feature reads the frequency map at
`parsedUrl.href.split("?")[0]` — the base of the *normalised* URL — while the
engine updates the map at `url.split("?")[0]`.  String `.length` is the JS
UTF-16 unit count, modelled as the character count (equal for the
non-astral strings involved). -/
def extractFeatures (url : String) (options : RequestOptions)
    (freq : String → ℕ) : List ℚ :=
  match parseUrl url with
  | none => []
  | some pu =>
    let headers := options.headers
    let body := options.body.getD ""
    [ ((url.length : ℕ) : ℚ),
      ((options.method.elim 0 String.length : ℕ) : ℚ),
      (((jsonStringify body).length : ℕ) : ℚ),
      (((headers.map Prod.fst).dedup.length : ℕ) : ℚ),
      (((headerValue headers "Content-Type").length : ℕ) : ℚ),
      (((headerValue headers "Authorization").length : ℕ) : ℚ),
      (((headerValue headers "User-Agent").length : ℕ) : ℚ),
      ((pu.hostname.length : ℕ) : ℚ),
      (((pu.pathname.splitOn "/").length : ℕ) : ℚ),
      (((serializeQuery pu.search).length : ℕ) : ℚ),
      ((freq (jsSplitFirst pu.href) : ℕ) : ℚ) ]

/-- `array.push(x)` followed by `if (array.length > cap) array.shift()`
(src/abnormalie.js:149-150 and 167-168). -/
def pushCapped {α : Type} (cap : ℕ) (x : α) (l : List α) : List α :=
  let l2 := l ++ [x]
  if cap < l2.length then l2.tail else l2

/-- Real-number `≤` as a `Bool` (the ascending numeric comparator
`(a, b) => a - b` of src/abnormalie.js:244). -/
noncomputable def jsNumLe (a b : ℝ) : Bool := decide (a ≤ b)

/-- `calculateDynamicThreshold` (src/abnormalie.js:242-247).  `Math.floor(0.95
* n)` equals `⌊19n/20⌋ = 19n/20` in `ℕ`: the double product `fl(fl(0.95)·n)`
rounds to the exact value's floor for every list length the program can
reach (the rounding error `n·2^(-53)·0.95...` is below half an ulp of
`0.95·n`), so the exact-real index is faithful. -/
noncomputable def calculateDynamicThreshold (scores : List ℝ) : ℝ :=
  if scores = [] then 0.8
  else
    let sortedScores := sortBy jsNumLe scores
    sortedScores.getD (19 * sortedScores.length / 20) 0

/-- The findings the engine logs via `logAnomaly`
(src/abnormalie.js:172-195). -/
inductive Finding where
  | anomaly (requestId url : String) (score threshold : ℝ) : Finding
  | repetition (requestId url : String) : Finding
  | identifier (requestId url : String) (identifiers : List String) : Finding

/-- Is this an `AnomalyFinding`? -/
def isAnomaly : Finding → Bool
  | .anomaly _ _ _ _ => true
  | _ => false

/-- Is this a `RepetitionFinding`? -/
def isRepetition : Finding → Bool
  | .repetition _ _ => true
  | _ => false

/-- The `telemetryData` global (src/abnormalie.js:17-31).  The two maps are
total functions with defaults (`|| 0`, absent key ↦ no set yet); a base
URL's entry in `repetitiveRequests` is the list of parameter signatures
already seen for it. -/
structure Telemetry where
  networkRequests : List FV
  isolationForest : Option IsolationForestModel
  totalRuns : ℕ
  repetitiveRequests : String → List String
  falsePositives : List String
  falseNegatives : List String
  anomalyScores : List ℝ
  lastRetrainTime : ℤ
  requestFrequency : String → ℕ

/-- `initializeTelemetryData` (src/abnormalie.js:17-31); `now0` is the
`Date.now()` at initialisation. -/
def initializeTelemetryData (now0 : ℤ) : Telemetry where
  networkRequests := []
  isolationForest := none
  totalRuns := 0
  repetitiveRequests := fun _ => []
  falsePositives := []
  falseNegatives := []
  anomalyScores := []
  lastRetrainTime := now0
  requestFrequency := fun _ => 0

/-- The retrain trigger (src/abnormalie.js:158):
`networkRequests.length >= 100 && (!isolationForest ||
currentTime - lastRetrainTime > 3600000)`. -/
def shouldRetrain (st : Telemetry) (now : ℤ) : Bool :=
  decide (100 ≤ st.networkRequests.length) &&
    (st.isolationForest.isNone || decide ((3600000 : ℤ) < now - st.lastRetrainTime))

/-- Steps 3 of the ingest (src/abnormalie.js:146-154): push the extracted
features into the capped history and bump the frequency counter of
`url.split("?")[0]`. -/
def recordRequest (url : String) (features : FV) (st : Telemetry) : Telemetry :=
  let st1 := { st with networkRequests := pushCapped 10000 features st.networkRequests }
  let baseUrl := jsSplitFirst url
  { st1 with requestFrequency :=
      fun k => if k = baseUrl then st1.requestFrequency k + 1 else st1.requestFrequency k }

/-- The retrain step (src/abnormalie.js:157-162).  When the trigger fires, a
fresh `IsolationForest(200, 512, 15)` is *first* stored and *then* trained in
place, so on a mid-training exception the stored model holds the trees built
so far and `lastRetrainTime` is not updated; the returned `Bool` is `false`
exactly when training threw. -/
def stageRetrain (rnd : Rand) (now : ℤ) (st : Telemetry) : Telemetry × Bool :=
  if shouldRetrain st now then
    let pr := buildTrees rnd 200 512 15 st.networkRequests
    ({ st with isolationForest := some ⟨200, 512, 15, pr.1⟩,
               lastRetrainTime := if pr.2 then now else st.lastRetrainTime }, pr.2)
  else (st, true)

/-- The serialised body handed to the identifier scan
(src/abnormalie.js:191): `options?.body ? JSON.stringify(options.body) : ""`
— only a truthy body is serialised (an empty-string body is falsy). -/
def jsBody (b : Option String) : String :=
  match b with
  | none => ""
  | some s => if s = "" then "" else jsonStringify s

/-- Steps 6-8 of the ingest (src/abnormalie.js:177-197): the
repetitive-request check, the identifier scan over the serialised body, and
the persistence request (a collaborator call with no effect on the modelled
state).  `scan` is the regex scanner `extractIdentifiers`
(src/abnormalie.js:223-239): its internal `try/catch` makes it total, and no
claim proved here depends on the matched set, so it is an oracle. -/
def afterScoring (scan : String → List String) (reqId url : String)
    (options : RequestOptions) (st : Telemetry) (fs : List Finding) :
    Telemetry × List Finding :=
  let baseRequestUrl := jsSplitFirst url
  let paramHash := paramSignature (jsSplitSecond url)
  let seen := paramHash ∈ st.repetitiveRequests baseRequestUrl
  let st5 := if seen then st
    else { st with repetitiveRequests :=
        fun k => if k = baseRequestUrl then paramHash :: st.repetitiveRequests k
                 else st.repetitiveRequests k }
  let fs2 := fs ++ (if seen then [Finding.repetition reqId url] else [])
  let ids := scan (jsBody options.body)
  let fs3 := fs2 ++ (if ids = [] then [] else [Finding.identifier reqId url ids])
  (st5, fs3)

/-- The scoring step and everything after it (src/abnormalie.js:165-197).
With a model present, `predict` may throw (see `pathLength`); the
whole-ingest `catch` then freezes the state as already mutated and skips the
remaining steps. -/
noncomputable def scoreStage (scan : String → List String) (reqId url : String)
    (options : RequestOptions) (features : FV) (st : Telemetry) :
    Telemetry × List Finding :=
  match st.isolationForest with
  | none => afterScoring scan reqId url options st []
  | some m =>
    match predictAvg m features with
    | none => (st, [])
    | some avg =>
      let anomalyScore := (2 : ℝ) ^ (-((avg : ℝ)) / cFun st.networkRequests.length)
      let st4 := { st with anomalyScores := pushCapped 1000 anomalyScore st.anomalyScores }
      let dynamicThreshold := calculateDynamicThreshold st4.anomalyScores
      let fs := if dynamicThreshold < anomalyScore
        then [Finding.anomaly reqId url anomalyScore dynamicThreshold] else []
      afterScoring scan reqId url options st4 fs

/-- `analyzeNetworkRequest` (src/abnormalie.js:135-199).  `now` is
`Date.now()`, `reqId` the generated request id.  The function body sits in
one `try { ... } catch {}`: a failure at any point returns the state as
mutated so far and skips every remaining step of this ingest; no failure
escapes to the caller. -/
noncomputable def analyzeNetworkRequest (rnd : Rand) (scan : String → List String)
    (now : ℤ) (reqId url : String) (options : RequestOptions) (st : Telemetry) :
    Telemetry × List Finding :=
  if isValidUrl url then
    let features := extractFeatures url options st.requestFrequency
    let st2 := recordRequest url features st
    let pr := stageRetrain rnd now st2
    if pr.2 then scoreStage scan reqId url options features pr.1
    else (pr.1, [])
  else (st, [])

/-- The subtree of `t` at a root path (`false` = left child, `true` = right
child); `none` when the path walks past a leaf. -/
def treeAt : Tree → List Bool → Option Tree
  | t, [] => some t
  | .node _ _ l r, b :: p => treeAt (if b then r else l) p
  | .leaf _, _ :: _ => none

/-- The points of `data` routed along a root path of `t`: at each internal
node keep exactly the points the corresponding `buildTree` partition sends to
that side (`value < split` left, `value >= split` right). -/
def dataAt : Tree → List Bool → List FV → Option (List FV)
  | _, [], data => some data
  | .node f s l r, b :: p, data =>
      if b then dataAt r p (data.filter (fun q => decide (s ≤ q.getD f 0)))
      else dataAt l p (data.filter (fun q => decide (q.getD f 0 < s)))
  | .leaf _, _ :: _, _ => none

/-- `LeafSizes t data`: every leaf of `t` records exactly the number of
points of `data` routed to it (a leaf is addressed by its root path via
`treeAt`; `dataAt` collects the points surviving the path's partitions). -/
def LeafSizes (t : Tree) (data : List FV) : Prop :=
  ∀ q s d, treeAt t q = some (.leaf s) → dataAt t q data = some d →
    s = d.length

/-- One ingest's inputs: the oracles for this call plus the descriptor. -/
structure Ingest where
  rnd : Rand
  scan : String → List String
  now : ℤ
  reqId : String
  url : String
  options : RequestOptions

/-- A sequence of ingests: fold `analyzeNetworkRequest` over the inputs,
collecting every finding emitted along the way. -/
noncomputable def runIngests (inputs : List Ingest) (st : Telemetry) :
    Telemetry × List Finding :=
  inputs.foldl
    (fun acc i =>
      let r := analyzeNetworkRequest i.rnd i.scan i.now i.reqId i.url i.options acc.1
      (r.1, acc.2 ++ r.2))
    (st, [])

/-- A model in the shape `train` leaves behind: the configured 200 trees,
all fully built. -/
def fullyTrained (m : IsolationForestModel) : Prop :=
  m.numTrees = 200 ∧ m.sampleSize = 512 ∧ m.maxDepth = 15 ∧ m.trees.length = 200

/-- The state invariant the engine maintains: a model only ever exists after
the history reached the minimum training size, and it is never a partially
built forest. -/
def EngineInv (st : Telemetry) : Prop :=
  (st.networkRequests.length ≤ 10000) ∧
  (st.anomalyScores.length ≤ 1000) ∧
  (∀ m, st.isolationForest = some m → 100 ≤ st.networkRequests.length ∧ fullyTrained m)

/-- A concrete oracle bundle (used only to instantiate theorems). -/
def rnd0 : Rand := ⟨fun _ _ => 0, fun _ _ => 0, fun _ _ => 0⟩

/-- A concrete identifier scanner matching `extractIdentifiers` on the bodies
used in the instantiations (`extractIdentifiers("") = []`). -/
def scan0 : String → List String := fun _ => []

/-- A concrete descriptor options object: no method, no headers, no body. -/
def opts0 : RequestOptions := ⟨none, [], none⟩

/-- A concrete well-formed ingest (no query, no body). -/
def ingest0 : Ingest := ⟨rnd0, scan0, 0, "req-0", "https://example.com/a", opts0⟩

/-- A forest one of whose trees is a bare depth-capped leaf of size 2 — the
shape `train` produces whenever a bootstrap sample contains a duplicated
point that survives to `maxDepth` (duplicates can never be separated by any
split, and 512 draws with replacement from ≤ 512 distinct vectors must
repeat). -/
def leafTwoForest : IsolationForestModel := ⟨200, 512, 15, [Tree.leaf 2]⟩

/-- A telemetry state holding `leafTwoForest` with a short history, fresh
retrain clock and an empty repetition index. -/
def stLeafTwo : Telemetry :=
  { initializeTelemetryData 0 with isolationForest := some leafTwoForest }

/-- The recurrence of `IsolationForest.buildTree` exactly as the source
states it (src/abnormalie.js:83-97): `buildTree` (defined through the
structural fuel `maxDepth - depth`) satisfies it, so the fuel is an
implementation detail. -/
theorem buildTree_recurrence (fa : List Bool → ℕ) (ra : List Bool → ℚ)
    (maxDepth : ℕ) (data : List (Option FV)) (depth : ℕ) (path : List Bool) :
    buildTree fa ra maxDepth data depth path =
      if data.length ≤ 1 ∨ maxDepth ≤ depth then some (.leaf data.length)
      else
        match data.mapM id with
        | none => none
        | some pts =>
          let p0 : FV := pts.headD []
          let feature := fa path % p0.length
          let values := pts.map (fun q => q.getD feature 0)
          let mn := listMin values
          let mx := listMax values
          let splitValue := mn + ra path * (mx - mn)
          let lft := data.filter (fun p => p.elim false (fun q => decide (q.getD feature 0 < splitValue)))
          let rgt := data.filter (fun p => p.elim false (fun q => decide (splitValue ≤ q.getD feature 0)))
          match buildTree fa ra maxDepth lft (depth + 1) (path ++ [false]),
                buildTree fa ra maxDepth rgt (depth + 1) (path ++ [true]) with
          | some l, some r => some (.node feature splitValue l r)
          | _, _ => none := by
  by_cases h : data.length ≤ 1 ∨ maxDepth ≤ depth
  · rw [buildTree, buildTreeFuel.eq_def, if_pos h, if_pos h]
  · have h2 : maxDepth - depth = (maxDepth - (depth + 1)) + 1 := by omega
    rw [buildTree, buildTreeFuel.eq_def, if_neg h, if_neg h, h2]
    rfl

theorem mapM_id_map_some (l : List FV) : (l.map some).mapM id = some l := by
  induction l with
  | nil => rfl
  | cons a l ih =>
    rw [List.map_cons, List.mapM_cons, ih]
    rfl

theorem filter_elim_map_some (q : FV → Bool) (l : List FV) :
    (l.map some).filter (fun p => p.elim false q) = (l.filter q).map some := by
  induction l with
  | nil => rfl
  | cons a l ih =>
    simp only [List.map_cons, List.filter_cons, Option.elim_some]
    by_cases h : q a = true
    · simp [h, ih]
    · simp [h, ih]

theorem pushCapped_length {α : Type} (cap : ℕ) (x : α) (l : List α) :
    (pushCapped cap x l).length =
      if cap < l.length + 1 then l.length else l.length + 1 := by
  simp only [pushCapped]
  by_cases h : cap < (l ++ [x]).length
  · rw [if_pos h]
    simp only [List.length_append, List.length_singleton] at h ⊢
    rw [if_pos h, List.length_tail]
    simp
  · rw [if_neg h]
    simp only [List.length_append, List.length_singleton] at h ⊢
    rw [if_neg h]

theorem pushCapped_le {α : Type} {cap : ℕ} (x : α) {l : List α}
    (h : l.length ≤ cap) : (pushCapped cap x l).length ≤ cap := by
  rw [pushCapped_length]
  split <;> omega

theorem pushCapped_length_lt {α : Type} {cap : ℕ} (x : α) {l : List α}
    (h : l.length < cap) : (pushCapped cap x l).length = l.length + 1 := by
  rw [pushCapped_length, if_neg (by omega)]

theorem pushCapped_mono {α : Type} (cap : ℕ) (x : α) (l : List α) :
    l.length ≤ (pushCapped cap x l).length := by
  rw [pushCapped_length]
  split <;> omega

theorem pushCapped_full {α : Type} {cap : ℕ} {x : α} {l : List α}
    (h0 : 0 < cap) (h : l.length = cap) :
    pushCapped cap x l = l.tail ++ [x] := by
  cases l with
  | nil => simp at h; omega
  | cons a l' =>
    simp only [pushCapped, List.cons_append, List.length_cons, List.length_append,
      List.length_singleton]
    rw [if_pos (by simp at h ⊢; omega)]
    simp

theorem insertSorted_perm {α : Type} (le : α → α → Bool) (x : α) (l : List α) :
    (insertSorted le x l).Perm (x :: l) := by
  induction l with
  | nil => exact List.Perm.refl _
  | cons y ys ih =>
    simp only [insertSorted]
    split
    · exact List.Perm.refl _
    · exact (List.Perm.cons y ih).trans (List.Perm.swap x y ys)

theorem sortBy_perm {α : Type} (le : α → α → Bool) (l : List α) :
    (sortBy le l).Perm l := by
  induction l with
  | nil => exact List.Perm.refl _
  | cons x xs ih =>
    exact (insertSorted_perm le x (sortBy le xs)).trans (List.Perm.cons x ih)

theorem insertSorted_sorted (x : ℝ) (l : List ℝ) (h : l.Sorted (· ≤ ·)) :
    (insertSorted jsNumLe x l).Sorted (· ≤ ·) := by
  induction l with
  | nil => simp [insertSorted]
  | cons y ys ih =>
    rw [List.sorted_cons] at h
    simp only [insertSorted, jsNumLe]
    by_cases hle : x ≤ y
    · rw [if_pos (by simpa using hle), List.sorted_cons]
      refine ⟨?_, by rw [List.sorted_cons]; exact h⟩
      intro b hb
      rcases List.mem_cons.mp hb with rfl | hb
      · exact hle
      · exact hle.trans (h.1 b hb)
    · rw [if_neg (by simpa using hle), List.sorted_cons]
      refine ⟨?_, ih h.2⟩
      intro b hb
      have hb2 := (insertSorted_perm jsNumLe x ys).mem_iff.mp hb
      rcases List.mem_cons.mp hb2 with rfl | hb2
      · exact le_of_not_le hle
      · exact h.1 b hb2

theorem sortBy_sorted (l : List ℝ) : (sortBy jsNumLe l).Sorted (· ≤ ·) := by
  induction l with
  | nil => simp [sortBy]
  | cons x xs ih => exact insertSorted_sorted x (sortBy jsNumLe xs) ih

theorem leafSizes_leaf (data : List FV) :
    LeafSizes (Tree.leaf data.length) data := by
  intro q s d hq hd
  cases q with
  | nil =>
    simp only [treeAt, Option.some.injEq, Tree.leaf.injEq] at hq
    simp only [dataAt, Option.some.injEq] at hd
    subst hd
    omega
  | cons b p => simp [treeAt] at hq

theorem leafSizes_node (feature : ℕ) (split : ℚ) (data : List FV)
    (tl tr : Tree)
    (hl : LeafSizes tl (data.filter (fun q => decide (q.getD feature 0 < split))))
    (hr : LeafSizes tr (data.filter (fun q => decide (split ≤ q.getD feature 0)))) :
    LeafSizes (Tree.node feature split tl tr) data := by
  intro q s d hq hd
  cases q with
  | nil =>
    simp only [treeAt, Option.some.injEq] at hq
    exact absurd hq (by simp)
  | cons b p =>
    cases b with
    | false =>
      simp only [treeAt, if_neg (by simp : ¬ (false : Bool) = true)] at hq
      simp only [dataAt, if_neg (by simp : ¬ (false : Bool) = true)] at hd
      exact hl p s d hq hd
    | true =>
      simp only [treeAt, if_pos rfl] at hq
      simp only [dataAt, if_pos rfl] at hd
      exact hr p s d hq hd

theorem buildTree_map_some_spec (fa : List Bool → ℕ) (ra : List Bool → ℚ)
    (maxDepth : ℕ) (n : ℕ) :
    ∀ (data : List FV) (depth : ℕ) (path : List Bool),
      maxDepth - depth ≤ n →
      ∃ t, buildTree fa ra maxDepth (data.map some) depth path = some t ∧
        LeafSizes t data := by
  induction n with
  | zero =>
    intro data depth path hn
    rw [buildTree_recurrence, if_pos (Or.inr (by omega)), List.length_map]
    exact ⟨.leaf data.length, rfl, leafSizes_leaf data⟩
  | succ n ih =>
    intro data depth path hn
    rw [buildTree_recurrence]
    by_cases hc : (data.map some).length ≤ 1 ∨ maxDepth ≤ depth
    · rw [if_pos hc, List.length_map]
      exact ⟨.leaf data.length, rfl, leafSizes_leaf data⟩
    · rw [if_neg hc, mapM_id_map_some]
      dsimp only
      rw [filter_elim_map_some, filter_elim_map_some]
      have hdep : depth < maxDepth := by
        rcases not_or.mp hc with ⟨_, h2⟩; omega
      set F := fa path % (data.headD []).length with hF
      set S := listMin (data.map (fun q => q.getD F 0)) +
        ra path * (listMax (data.map (fun q => q.getD F 0)) -
          listMin (data.map (fun q => q.getD F 0))) with hS
      obtain ⟨tl, htl, hltl⟩ :=
        ih (data.filter (fun q => decide (q.getD F 0 < S)))
          (depth + 1) (path ++ [false]) (by omega)
      obtain ⟨tr, htr, hltr⟩ :=
        ih (data.filter (fun q => decide (S ≤ q.getD F 0)))
          (depth + 1) (path ++ [true]) (by omega)
      rw [htl, htr]
      exact ⟨.node F S tl tr, rfl, leafSizes_node F S data tl tr hltl hltr⟩

theorem getRandomSample_eq_map_some (idx : ℕ → ℕ) {data : List FV}
    (h : data ≠ []) (k : ℕ) :
    getRandomSample idx data k =
      ((List.range k).map (fun i => data.getD (idx i % data.length) [])).map some := by
  have hlen : 0 < data.length := List.length_pos.mpr h
  have hmax : max data.length 1 = data.length := by omega
  simp only [getRandomSample, List.map_map, hmax]
  refine List.map_congr_left ?_
  intro i _
  have hlt : idx i % data.length < data.length := Nat.mod_lt _ hlen
  simp only [Function.comp_apply, List.getD_eq_getElem?_getD, List.get?_eq_getElem?]
  cases hx : data[idx i % data.length]? with
  | none => exact absurd (List.getElem?_eq_none_iff.mp hx) (by omega)
  | some v => rfl

theorem buildTrees_nonempty (rnd : Rand) (numTrees sampleSize maxDepth : ℕ)
    {data : List FV} (h : data ≠ []) :
    (buildTrees rnd numTrees sampleSize maxDepth data).2 = true ∧
    (buildTrees rnd numTrees sampleSize maxDepth data).1.length = numTrees := by
  have hstep : ∀ i : ℕ, ∃ t, buildTree (rnd.featAt i) (rnd.splitAt i) maxDepth
      (getRandomSample (rnd.sampleAt i) data sampleSize) 0 [] = some t := by
    intro i
    rw [getRandomSample_eq_map_some (rnd.sampleAt i) h sampleSize]
    obtain ⟨t, ht, _⟩ := buildTree_map_some_spec (rnd.featAt i) (rnd.splitAt i)
      maxDepth maxDepth _ 0 [] (by omega)
    exact ⟨t, ht⟩
  have key : ∀ (l : List ℕ) (acc : List Tree),
      ∃ ts, l.foldl
          (fun acc2 i =>
            match acc2 with
            | (ts, false) => (ts, false)
            | (ts, true) =>
              match buildTree (rnd.featAt i) (rnd.splitAt i) maxDepth
                  (getRandomSample (rnd.sampleAt i) data sampleSize) 0 [] with
              | some t => (ts ++ [t], true)
              | none => (ts, false))
          (acc, true) = (acc ++ ts, true) ∧ ts.length = l.length := by
    intro l
    induction l with
    | nil => intro acc; exact ⟨[], by simp, rfl⟩
    | cons a l ih =>
      intro acc
      obtain ⟨t, ht⟩ := hstep a
      obtain ⟨ts, hts, hlen⟩ := ih (acc ++ [t])
      refine ⟨t :: ts, ?_, by simp [hlen]⟩
      rw [List.foldl_cons]
      simp only [ht]
      rw [hts]
      simp
  obtain ⟨ts, hts, hlen⟩ := key (List.range numTrees) []
  rw [buildTrees, hts]
  simpa using hlen

attribute [irreducible] buildTrees

/-- Claim C7: for every non-empty dataset of 11-field feature vectors and
every `maxDepth ≥ 0` (any `ℕ`), `buildTree` terminates without throwing —
in particular in the degenerate min = max case, where the left partition is
empty and the right one absorbs all points until the depth bound forces a
leaf — and every leaf's recorded size equals the number of points of the
dataset routed to that leaf. -/
theorem C7_buildTree_terminates_and_leaf_sizes (fa : List Bool → ℕ)
    (ra : List Bool → ℚ) (maxDepth : ℕ) (data : List FV)
    (hne : data ≠ []) (h11 : ∀ p ∈ data, p.length = 11) :
    ∃ t, buildTree fa ra maxDepth (data.map some) 0 [] = some t ∧
      LeafSizes t data := by
  obtain ⟨t, ht, hl⟩ :=
    buildTree_map_some_spec fa ra maxDepth maxDepth data 0 [] (by omega)
  exact ⟨t, ht, hl⟩

/-- Witness for C7 at a concrete degenerate dataset: two identical 11-field
vectors, for which every split has min = max. -/
theorem C7_buildTree_terminates_and_leaf_sizes_witness :
    ∃ t, buildTree (rnd0.featAt 0) (rnd0.splitAt 0) 15
      (([List.replicate 11 (0:ℚ), List.replicate 11 (0:ℚ)]).map some) 0 [] = some t ∧
      LeafSizes t [List.replicate 11 (0:ℚ), List.replicate 11 (0:ℚ)] := by
  exact C7_buildTree_terminates_and_leaf_sizes _ _ 15 _ (by simp) (by simp)

set_option maxRecDepth 400000 in
/-- Claim C4, counterexample: `train` on the empty dataset throws instead of
producing a usable forest.  Every bootstrap draw is `data[0] = undefined`,
and `buildTree` reads `data[0].length` of it (`TypeError`), so the training
loop aborts (`false` flag) with no tree built. -/
theorem C4_train_empty_crashes :
    buildTrees rnd0 200 512 15 [] = ([], false) := by
  with_unfolding_all rfl

/-- Claim C4 as amended: `train` on a dataset holding a single (11-field)
point does not fail — every tree terminates through the `size <= 1` /
`depth >= maxDepth` leaf conditions — and it yields the full `numTrees`
(200) trees; `train` on the empty dataset, by contrast, throws (see the
counterexample). -/
theorem C4_train_single_point (rnd : Rand) (v : FV) (h11 : v.length = 11) :
    (buildTrees rnd 200 512 15 [v]).2 = true ∧
    (buildTrees rnd 200 512 15 [v]).1.length = 200 :=
  buildTrees_nonempty rnd 200 512 15 (by simp)

/-- Witness for C4 at the all-zero 11-field vector. -/
theorem C4_train_single_point_witness :
    (buildTrees rnd0 200 512 15 [List.replicate 11 (0:ℚ)]).2 = true ∧
    (buildTrees rnd0 200 512 15 [List.replicate 11 (0:ℚ)]).1.length = 200 :=
  C4_train_single_point rnd0 (List.replicate 11 (0:ℚ)) (by simp)

/-- Claim C1 (evaluation of the code at the failing input): a point reaching
a leaf whose stored size is ≥ 2 — the shape every depth-capped leaf holding a
surviving duplicate has, and bootstrap sampling 512 draws with replacement
guarantees duplicates whenever the history holds ≤ 512 distinct vectors —
does *not* contribute 1: `pathLength` throws (recursing into the
`undefined` child of the leaf), so `predict` throws instead of returning
`2 ** (-avgPathLength / c(n))`. -/
theorem C1_predict_throws_on_size_two_leaf :
    pathLength (List.replicate 11 (0:ℚ)) (Tree.leaf 2) = none ∧
    predictAvg leafTwoForest (List.replicate 11 (0:ℚ)) = none ∧
    predictScore leafTwoForest 500 (List.replicate 11 (0:ℚ)) = none ∧
    pathLength (List.replicate 11 (0:ℚ)) (Tree.leaf 1) = some 1 := by
  exact ⟨rfl, rfl, rfl, rfl⟩

/-- Claim C6: on an empty score history the threshold is the fixed default
0.8; on a nonempty history it is the element at index `floor(0.95 × length)`
of the history sorted ascending (stated through an arbitrary sorted
permutation of the history — sorted permutations are unique — so the
statement does not depend on this file's sorting routine), and that index is
always in range. -/
theorem C6_dynamic_threshold (scores sorted : List ℝ) (hne : scores ≠ [])
    (hperm : sorted.Perm scores) (hsort : sorted.Sorted (· ≤ ·)) :
    calculateDynamicThreshold [] = 0.8 ∧
    calculateDynamicThreshold scores =
      sorted.getD ⌊(0.95 : ℚ) * (scores.length : ℚ)⌋₊ 0 ∧
    ⌊(0.95 : ℚ) * (scores.length : ℚ)⌋₊ < scores.length := by
  have hidx : ⌊(0.95 : ℚ) * (scores.length : ℚ)⌋₊ = 19 * scores.length / 20 := by
    have h1 : (0.95 : ℚ) * (scores.length : ℚ) =
        ((19 * scores.length : ℕ) : ℚ) / ((20 : ℕ) : ℚ) := by
      push_cast
      ring
    rw [h1, Nat.floor_div_nat, Nat.floor_natCast]
  have hpos : 0 < scores.length := List.length_pos.mpr hne
  have hlt : 19 * scores.length / 20 < scores.length := by
    rw [Nat.div_lt_iff_lt_mul (by omega)]
    omega
  have hsorteq : sortBy jsNumLe scores = sorted :=
    List.eq_of_perm_of_sorted ((sortBy_perm jsNumLe scores).trans hperm.symm)
      (sortBy_sorted scores) hsort
  refine ⟨by simp [calculateDynamicThreshold], ?_, by omega⟩
  rw [calculateDynamicThreshold, if_neg hne, hidx]
  have hlen : (sortBy jsNumLe scores).length = scores.length :=
    (sortBy_perm jsNumLe scores).length_eq
  dsimp only
  rw [hlen, hsorteq]

/-- Witness for C6 at the singleton history `[0.9]`. -/
theorem C6_dynamic_threshold_witness :
    calculateDynamicThreshold [] = 0.8 ∧
    calculateDynamicThreshold [(0.9 : ℝ)] =
      [(0.9 : ℝ)].getD ⌊(0.95 : ℚ) * (([(0.9 : ℝ)].length : ℕ) : ℚ)⌋₊ 0 ∧
    ⌊(0.95 : ℚ) * (([(0.9 : ℝ)].length : ℕ) : ℚ)⌋₊ < [(0.9 : ℝ)].length :=
  C6_dynamic_threshold [(0.9 : ℝ)] [(0.9 : ℝ)] (by simp) (List.Perm.refl _)
    (by simp)

theorem afterScoring_eq (scan : String → List String) (reqId url : String)
    (options : RequestOptions) (st : Telemetry) (fs : List Finding) :
    afterScoring scan reqId url options st fs =
      ((if paramSignature (jsSplitSecond url) ∈ st.repetitiveRequests (jsSplitFirst url)
        then st
        else { st with repetitiveRequests :=
            fun k => if k = jsSplitFirst url
              then paramSignature (jsSplitSecond url) :: st.repetitiveRequests k
              else st.repetitiveRequests k }),
       (fs ++ (if paramSignature (jsSplitSecond url) ∈ st.repetitiveRequests (jsSplitFirst url)
          then [Finding.repetition reqId url] else [])) ++
        (if scan (jsBody options.body) = [] then []
         else [Finding.identifier reqId url (scan (jsBody options.body))])) := rfl

theorem afterScoring_state (scan : String → List String) (reqId url : String)
    (options : RequestOptions) (st : Telemetry) (fs : List Finding) :
    (afterScoring scan reqId url options st fs).1.networkRequests = st.networkRequests ∧
    (afterScoring scan reqId url options st fs).1.anomalyScores = st.anomalyScores ∧
    (afterScoring scan reqId url options st fs).1.isolationForest = st.isolationForest ∧
    (afterScoring scan reqId url options st fs).1.lastRetrainTime = st.lastRetrainTime ∧
    (afterScoring scan reqId url options st fs).1.requestFrequency = st.requestFrequency := by
  rw [afterScoring_eq]
  split <;> simp

theorem afterScoring_no_anomaly (scan : String → List String) (reqId url : String)
    (options : RequestOptions) (st : Telemetry) :
    ((afterScoring scan reqId url options st []).2.all (fun f => !isAnomaly f)) = true := by
  rw [afterScoring_eq]
  simp only [List.nil_append, List.all_append, Bool.and_eq_true, List.all_eq_true]
  constructor
  · split <;> simp [isAnomaly]
  · split <;> simp [isAnomaly]

theorem scoreStage_no_model (scan : String → List String) (reqId url : String)
    (options : RequestOptions) (features : FV) (st : Telemetry)
    (h : st.isolationForest = none) :
    scoreStage scan reqId url options features st =
      afterScoring scan reqId url options st [] := by
  rw [scoreStage, h]

theorem scoreStage_crash (scan : String → List String) (reqId url : String)
    (options : RequestOptions) (features : FV) (st : Telemetry)
    (m : IsolationForestModel) (h : st.isolationForest = some m)
    (hp : predictAvg m features = none) :
    scoreStage scan reqId url options features st = (st, []) := by
  rw [scoreStage, h]
  dsimp only
  rw [hp]

theorem scoreStage_cases (scan : String → List String) (reqId url : String)
    (options : RequestOptions) (features : FV) (st : Telemetry) :
    scoreStage scan reqId url options features st = (st, []) ∨
    scoreStage scan reqId url options features st =
      afterScoring scan reqId url options st [] ∨
    ∃ x fs, scoreStage scan reqId url options features st =
      afterScoring scan reqId url options
        { st with anomalyScores := pushCapped 1000 x st.anomalyScores } fs := by
  rw [scoreStage]
  cases hf : st.isolationForest with
  | none => exact Or.inr (Or.inl rfl)
  | some m =>
    dsimp only
    cases hp : predictAvg m features with
    | none => exact Or.inl rfl
    | some avg => exact Or.inr (Or.inr ⟨_, _, rfl⟩)

theorem scoreStage_state (scan : String → List String) (reqId url : String)
    (options : RequestOptions) (features : FV) (st : Telemetry) :
    (scoreStage scan reqId url options features st).1.networkRequests = st.networkRequests ∧
    (scoreStage scan reqId url options features st).1.isolationForest = st.isolationForest ∧
    (scoreStage scan reqId url options features st).1.lastRetrainTime = st.lastRetrainTime ∧
    (scoreStage scan reqId url options features st).1.requestFrequency = st.requestFrequency ∧
    ((scoreStage scan reqId url options features st).1.anomalyScores = st.anomalyScores ∨
      ∃ x, (scoreStage scan reqId url options features st).1.anomalyScores =
        pushCapped 1000 x st.anomalyScores) := by
  rcases scoreStage_cases scan reqId url options features st with h | h | ⟨x, fs, h⟩
  · rw [h]
    exact ⟨rfl, rfl, rfl, rfl, Or.inl rfl⟩
  · rw [h]
    obtain ⟨h1, h2, h3, h4, h5⟩ := afterScoring_state scan reqId url options st []
    exact ⟨h1, h3, h4, h5, Or.inl h2⟩
  · rw [h]
    obtain ⟨h1, h2, h3, h4, h5⟩ := afterScoring_state scan reqId url options
      { st with anomalyScores := pushCapped 1000 x st.anomalyScores } fs
    exact ⟨h1, h3, h4, h5, Or.inr ⟨x, h2⟩⟩

theorem stageRetrain_state (rnd : Rand) (now : ℤ) (st : Telemetry) :
    (stageRetrain rnd now st).1.networkRequests = st.networkRequests ∧
    (stageRetrain rnd now st).1.anomalyScores = st.anomalyScores ∧
    (stageRetrain rnd now st).1.repetitiveRequests = st.repetitiveRequests ∧
    (stageRetrain rnd now st).1.requestFrequency = st.requestFrequency := by
  rw [stageRetrain]
  split <;> simp

theorem stageRetrain_off (rnd : Rand) (now : ℤ) (st : Telemetry)
    (h : shouldRetrain st now = false) :
    stageRetrain rnd now st = (st, true) := by
  rw [stageRetrain, if_neg (by simp [h])]

theorem stageRetrain_on (rnd : Rand) (now : ℤ) (st : Telemetry)
    (h : shouldRetrain st now = true) :
    stageRetrain rnd now st =
      ({ st with
          isolationForest := some (⟨200, 512, 15,
            (buildTrees rnd 200 512 15 st.networkRequests).1⟩ : IsolationForestModel),
          lastRetrainTime :=
            (if (buildTrees rnd 200 512 15 st.networkRequests).2 then now
             else st.lastRetrainTime) },
       (buildTrees rnd 200 512 15 st.networkRequests).2) := by
  rw [stageRetrain, if_pos (by simp [h])]

theorem recordRequest_state (url : String) (features : FV) (st : Telemetry) :
    (recordRequest url features st).networkRequests =
      pushCapped 10000 features st.networkRequests ∧
    (recordRequest url features st).isolationForest = st.isolationForest ∧
    (recordRequest url features st).anomalyScores = st.anomalyScores ∧
    (recordRequest url features st).repetitiveRequests = st.repetitiveRequests ∧
    (recordRequest url features st).lastRetrainTime = st.lastRetrainTime ∧
    (recordRequest url features st).requestFrequency =
      (fun k => if k = jsSplitFirst url then st.requestFrequency k + 1
                else st.requestFrequency k) := by
  refine ⟨rfl, rfl, rfl, rfl, rfl, rfl⟩

theorem analyze_invalid (rnd : Rand) (scan : String → List String) (now : ℤ)
    (reqId url : String) (options : RequestOptions) (st : Telemetry)
    (h : isValidUrl url = false) :
    analyzeNetworkRequest rnd scan now reqId url options st = (st, []) := by
  rw [analyzeNetworkRequest, if_neg (by simp [h])]

theorem analyze_valid (rnd : Rand) (scan : String → List String) (now : ℤ)
    (reqId url : String) (options : RequestOptions) (st : Telemetry)
    (h : isValidUrl url = true) :
    analyzeNetworkRequest rnd scan now reqId url options st =
      (if (stageRetrain rnd now
            (recordRequest url (extractFeatures url options st.requestFrequency) st)).2
       then scoreStage scan reqId url options
         (extractFeatures url options st.requestFrequency)
         (stageRetrain rnd now
           (recordRequest url (extractFeatures url options st.requestFrequency) st)).1
       else ((stageRetrain rnd now
           (recordRequest url (extractFeatures url options st.requestFrequency) st)).1, [])) := by
  rw [analyzeNetworkRequest, if_pos h]

theorem analyze_histories_shape (rnd : Rand) (scan : String → List String)
    (now : ℤ) (reqId url : String) (options : RequestOptions) (st : Telemetry) :
    ((analyzeNetworkRequest rnd scan now reqId url options st).1.networkRequests =
        st.networkRequests ∨
      (analyzeNetworkRequest rnd scan now reqId url options st).1.networkRequests =
        pushCapped 10000 (extractFeatures url options st.requestFrequency)
          st.networkRequests) ∧
    ((analyzeNetworkRequest rnd scan now reqId url options st).1.anomalyScores =
        st.anomalyScores ∨
      ∃ x, (analyzeNetworkRequest rnd scan now reqId url options st).1.anomalyScores =
        pushCapped 1000 x st.anomalyScores) := by
  by_cases h : isValidUrl url = true
  · rw [analyze_valid rnd scan now reqId url options st h]
    obtain ⟨q1, q2, q3, q4, q5, q6⟩ := recordRequest_state url
      (extractFeatures url options st.requestFrequency) st
    obtain ⟨r1, r2, r3, r4⟩ := stageRetrain_state rnd now
      (recordRequest url (extractFeatures url options st.requestFrequency) st)
    split
    · obtain ⟨s1, s2, s3, s4, s5⟩ := scoreStage_state scan reqId url options
        (extractFeatures url options st.requestFrequency)
        (stageRetrain rnd now
          (recordRequest url (extractFeatures url options st.requestFrequency) st)).1
      refine ⟨Or.inr (by rw [s1, r1, q1]), ?_⟩
      rcases s5 with h5 | ⟨x, h5⟩
      · exact Or.inl (by rw [h5, r2, q3])
      · exact Or.inr ⟨x, by rw [h5, r2, q3]⟩
    · exact ⟨Or.inr (by rw [r1, q1]), Or.inl (by rw [r2, q3])⟩
  · rw [analyze_invalid rnd scan now reqId url options st
      (by simpa using h)]
    exact ⟨Or.inl rfl, Or.inl rfl⟩

theorem analyze_step_bounds (rnd : Rand) (scan : String → List String)
    (now : ℤ) (reqId url : String) (options : RequestOptions) {st : Telemetry}
    (h1 : st.networkRequests.length ≤ 10000)
    (h2 : st.anomalyScores.length ≤ 1000) :
    (analyzeNetworkRequest rnd scan now reqId url options st).1.networkRequests.length ≤ 10000 ∧
    (analyzeNetworkRequest rnd scan now reqId url options st).1.anomalyScores.length ≤ 1000 := by
  obtain ⟨ha, hb⟩ := analyze_histories_shape rnd scan now reqId url options st
  constructor
  · rcases ha with h | h
    · rw [h]; exact h1
    · rw [h]; exact pushCapped_le _ h1
  · rcases hb with h | ⟨x, h⟩
    · rw [h]; exact h2
    · rw [h]; exact pushCapped_le _ h2

theorem runIngests_foldl (inputs : List Ingest) (st0 : Telemetry)
    (fs0 : List Finding) :
    inputs.foldl
      (fun acc i =>
        let r := analyzeNetworkRequest i.rnd i.scan i.now i.reqId i.url i.options acc.1
        (r.1, acc.2 ++ r.2)) (st0, fs0) =
      ((runIngests inputs st0).1, fs0 ++ (runIngests inputs st0).2) := by
  induction inputs generalizing st0 fs0 with
  | nil => simp [runIngests]
  | cons j rest ih =>
    rw [List.foldl_cons]
    dsimp only
    rw [ih]
    have hrhs : runIngests (j :: rest) st0 =
        ((runIngests rest (analyzeNetworkRequest j.rnd j.scan j.now j.reqId j.url
            j.options st0).1).1,
          (analyzeNetworkRequest j.rnd j.scan j.now j.reqId j.url j.options st0).2 ++
          (runIngests rest (analyzeNetworkRequest j.rnd j.scan j.now j.reqId j.url
            j.options st0).1).2) := by
      conv_lhs => rw [runIngests, List.foldl_cons]
      dsimp only
      rw [ih]
      simp
    rw [hrhs]
    simp

theorem runIngests_cons (j : Ingest) (rest : List Ingest) (st0 : Telemetry) :
    runIngests (j :: rest) st0 =
      ((runIngests rest (analyzeNetworkRequest j.rnd j.scan j.now j.reqId j.url
          j.options st0).1).1,
        (analyzeNetworkRequest j.rnd j.scan j.now j.reqId j.url j.options st0).2 ++
        (runIngests rest (analyzeNetworkRequest j.rnd j.scan j.now j.reqId j.url
          j.options st0).1).2) := by
  conv_lhs => rw [runIngests, List.foldl_cons]
  dsimp only
  rw [runIngests_foldl]
  simp

theorem runIngests_bounds (inputs : List Ingest) :
    ∀ (st : Telemetry), st.networkRequests.length ≤ 10000 →
      st.anomalyScores.length ≤ 1000 →
      (runIngests inputs st).1.networkRequests.length ≤ 10000 ∧
      (runIngests inputs st).1.anomalyScores.length ≤ 1000 := by
  induction inputs with
  | nil => intro st h1 h2; simpa [runIngests] using ⟨h1, h2⟩
  | cons j rest ih =>
    intro st h1 h2
    rw [runIngests_cons]
    obtain ⟨g1, g2⟩ := analyze_step_bounds j.rnd j.scan j.now j.reqId j.url j.options h1 h2
    exact ih _ g1 g2

/-- Claim C3: starting from the initial state, over every sequence of
ingests the request history never exceeds 10,000 entries and the score
history never exceeds 1,000 (the state only ever touches them through
`pushCapped`, by `analyze_histories_shape`); and eviction is FIFO: a push
into a full history removes exactly the oldest entry, keeping the remaining
entries' relative order (the new list is the old list's tail plus the new
entry at the back). -/
theorem C3_bounded_history (now0 : ℤ) (inputs : List Ingest)
    (l : List FV) (x : FV) (l2 : List ℝ) (x2 : ℝ)
    (hl : l.length = 10000) (hl2 : l2.length = 1000) :
    (runIngests inputs (initializeTelemetryData now0)).1.networkRequests.length ≤ 10000 ∧
    (runIngests inputs (initializeTelemetryData now0)).1.anomalyScores.length ≤ 1000 ∧
    pushCapped 10000 x l = l.tail ++ [x] ∧
    pushCapped 1000 x2 l2 = l2.tail ++ [x2] := by
  obtain ⟨h1, h2⟩ := runIngests_bounds inputs (initializeTelemetryData now0)
    (by simp [initializeTelemetryData]) (by simp [initializeTelemetryData])
  exact ⟨h1, h2, pushCapped_full (by omega) hl, pushCapped_full (by omega) hl2⟩

/-- Witness for C3: the empty ingest sequence together with concrete full
histories (10,000 zero vectors, 1,000 zero scores). -/
theorem C3_bounded_history_witness :
    (runIngests [] (initializeTelemetryData 0)).1.networkRequests.length ≤ 10000 ∧
    (runIngests [] (initializeTelemetryData 0)).1.anomalyScores.length ≤ 1000 ∧
    pushCapped 10000 [(1:ℚ)] (List.replicate 10000 ([] : FV)) =
      (List.replicate 10000 ([] : FV)).tail ++ [[(1:ℚ)]] ∧
    pushCapped 1000 (0.5 : ℝ) (List.replicate 1000 (0 : ℝ)) =
      (List.replicate 1000 (0 : ℝ)).tail ++ [(0.5 : ℝ)] :=
  C3_bounded_history 0 [] (List.replicate 10000 ([] : FV)) [(1:ℚ)]
    (List.replicate 1000 (0 : ℝ)) (0.5 : ℝ) (by rw [List.length_replicate])
    (by rw [List.length_replicate])

theorem runIngests_append (l1 l2 : List Ingest) (st : Telemetry) :
    runIngests (l1 ++ l2) st =
      ((runIngests l2 (runIngests l1 st).1).1,
       (runIngests l1 st).2 ++ (runIngests l2 (runIngests l1 st).1).2) := by
  conv_lhs => rw [runIngests, List.foldl_append]
  have h1 : (l1.foldl
      (fun acc i =>
        let r := analyzeNetworkRequest i.rnd i.scan i.now i.reqId i.url i.options acc.1
        (r.1, acc.2 ++ r.2)) (st, ([] : List Finding))) =
      ((runIngests l1 st).1, [] ++ (runIngests l1 st).2) := runIngests_foldl l1 st []
  rw [h1]
  rw [runIngests_foldl l2 (runIngests l1 st).1 ([] ++ (runIngests l1 st).2)]
  simp

theorem shouldRetrain_iff (st : Telemetry) (now : ℤ)
    (hinv : ∀ m, st.isolationForest = some m → 100 ≤ st.networkRequests.length) :
    shouldRetrain st now = true ↔
      (st.isolationForest = none ∧ 100 ≤ st.networkRequests.length) ∨
      (st.isolationForest ≠ none ∧ 3600000 < now - st.lastRetrainTime) := by
  cases hf : st.isolationForest with
  | none =>
    simp [shouldRetrain, hf]
  | some m =>
    have h100 := hinv m hf
    simp [shouldRetrain, hf, h100]

theorem analyze_step_noModel (rnd : Rand) (scan : String → List String)
    (now : ℤ) (reqId url : String) (options : RequestOptions) {st : Telemetry}
    (hf : st.isolationForest = none)
    (hlen : st.networkRequests.length + 1 < 100) :
    (analyzeNetworkRequest rnd scan now reqId url options st).1.isolationForest = none ∧
    (analyzeNetworkRequest rnd scan now reqId url options st).1.networkRequests.length =
      (if isValidUrl url = true then st.networkRequests.length + 1
       else st.networkRequests.length) ∧
    (analyzeNetworkRequest rnd scan now reqId url options st).2.all
      (fun f => !isAnomaly f) = true := by
  by_cases hv : isValidUrl url = true
  · rw [analyze_valid rnd scan now reqId url options st hv, if_pos hv]
    obtain ⟨q1, q2, q3, q4, q5, q6⟩ := recordRequest_state url
      (extractFeatures url options st.requestFrequency) st
    have hlen2 : (recordRequest url (extractFeatures url options st.requestFrequency)
        st).networkRequests.length = st.networkRequests.length + 1 := by
      rw [q1, pushCapped_length_lt _ (by omega)]
    have hsr : shouldRetrain
        (recordRequest url (extractFeatures url options st.requestFrequency) st) now =
        false := by
      simp only [shouldRetrain, hlen2]
      simp only [Bool.and_eq_false_iff, decide_eq_false_iff_not]
      left
      omega
    rw [stageRetrain_off rnd now _ hsr]
    rw [if_pos rfl]
    rw [scoreStage_no_model scan reqId url options _ _ (by rw [q2, hf])]
    obtain ⟨a1, a2, a3, a4, a5⟩ := afterScoring_state scan reqId url options
      (recordRequest url (extractFeatures url options st.requestFrequency) st) []
    refine ⟨by rw [a3, q2, hf], by rw [a1, hlen2], ?_⟩
    exact afterScoring_no_anomaly scan reqId url options _
  · rw [analyze_invalid rnd scan now reqId url options st (by simpa using hv), if_neg hv]
    exact ⟨hf, rfl, rfl⟩

theorem runIngests_noModel (inputs : List Ingest) :
    ∀ (st : Telemetry), st.isolationForest = none →
      st.networkRequests.length + inputs.length ≤ 99 →
      (runIngests inputs st).1.isolationForest = none ∧
      (runIngests inputs st).1.networkRequests.length ≤
        st.networkRequests.length + inputs.length ∧
      (runIngests inputs st).2.all (fun f => !isAnomaly f) = true := by
  induction inputs with
  | nil => intro st hf _; simpa [runIngests] using hf
  | cons j rest ih =>
    intro st hf hlen
    rw [runIngests_cons]
    dsimp only
    simp only [List.length_cons] at hlen ⊢
    obtain ⟨g1, g2, g3⟩ := analyze_step_noModel j.rnd j.scan j.now j.reqId j.url
      j.options hf (by omega)
    have hlen2 : (analyzeNetworkRequest j.rnd j.scan j.now j.reqId j.url j.options
        st).1.networkRequests.length ≤ st.networkRequests.length + 1 := by
      rw [g2]; split <;> omega
    obtain ⟨i1, i2, i3⟩ := ih _ g1 (by omega)
    refine ⟨i1, by omega, ?_⟩
    simp only [List.all_append, Bool.and_eq_true]
    exact ⟨g3, i3⟩

theorem runIngests_noModel_valid (inputs : List Ingest) :
    ∀ (st : Telemetry), st.isolationForest = none →
      (∀ i ∈ inputs, isValidUrl i.url = true) →
      st.networkRequests.length + inputs.length ≤ 99 →
      (runIngests inputs st).1.isolationForest = none ∧
      (runIngests inputs st).1.networkRequests.length =
        st.networkRequests.length + inputs.length := by
  induction inputs with
  | nil => intro st hf _ _; simpa [runIngests] using hf
  | cons j rest ih =>
    intro st hf hv hlen
    rw [runIngests_cons]
    dsimp only
    simp only [List.length_cons] at hlen ⊢
    obtain ⟨g1, g2, _⟩ := analyze_step_noModel j.rnd j.scan j.now j.reqId j.url
      j.options hf (by omega)
    rw [if_pos (hv j (List.mem_cons_self j rest))] at g2
    obtain ⟨i1, i2⟩ := ih _ g1 (fun i hi => hv i (List.mem_cons_of_mem j hi))
      (by omega)
    exact ⟨i1, by omega⟩

set_option maxRecDepth 10000 in
theorem analyze_step_train (rnd : Rand) (scan : String → List String)
    (now : ℤ) (reqId url : String) (options : RequestOptions) {st : Telemetry}
    (hf : st.isolationForest = none)
    (hlen : st.networkRequests.length = 99)
    (hv : isValidUrl url = true) :
    (analyzeNetworkRequest rnd scan now reqId url options st).1.networkRequests.length = 100 ∧
    (analyzeNetworkRequest rnd scan now reqId url options st).1.isolationForest =
      some ⟨200, 512, 15, (buildTrees rnd 200 512 15
        (analyzeNetworkRequest rnd scan now reqId url options st).1.networkRequests).1⟩ ∧
    (buildTrees rnd 200 512 15
      (analyzeNetworkRequest rnd scan now reqId url options st).1.networkRequests).1.length =
      200 ∧
    (buildTrees rnd 200 512 15
      (analyzeNetworkRequest rnd scan now reqId url options st).1.networkRequests).2 =
      true := by
  obtain ⟨q1, q2, q3, q4, q5, q6⟩ := recordRequest_state url
    (extractFeatures url options st.requestFrequency) st
  have hlen2 : (recordRequest url (extractFeatures url options st.requestFrequency)
      st).networkRequests.length = 100 := by
    rw [q1, pushCapped_length_lt _ (by omega), hlen]
  have hne : (recordRequest url (extractFeatures url options st.requestFrequency)
      st).networkRequests ≠ [] := by
    intro e
    rw [e] at hlen2
    simp at hlen2
  obtain ⟨hT2, hT1⟩ := buildTrees_nonempty rnd 200 512 15 hne
  have hsr : shouldRetrain
      (recordRequest url (extractFeatures url options st.requestFrequency) st) now =
      true := by
    rw [shouldRetrain, hlen2, q2, hf]
    rfl
  have hret : stageRetrain rnd now
      (recordRequest url (extractFeatures url options st.requestFrequency) st) =
      ({ recordRequest url (extractFeatures url options st.requestFrequency) st with
          isolationForest := some (⟨200, 512, 15,
            (buildTrees rnd 200 512 15 (recordRequest url
              (extractFeatures url options st.requestFrequency) st).networkRequests).1⟩ :
              IsolationForestModel),
          lastRetrainTime := now }, true) := by
    rw [stageRetrain_on rnd now _ hsr, hT2]
    simp
  have heq : analyzeNetworkRequest rnd scan now reqId url options st =
      scoreStage scan reqId url options (extractFeatures url options st.requestFrequency)
        { recordRequest url (extractFeatures url options st.requestFrequency) st with
            isolationForest := some (⟨200, 512, 15,
              (buildTrees rnd 200 512 15 (recordRequest url
                (extractFeatures url options st.requestFrequency) st).networkRequests).1⟩ :
                IsolationForestModel),
            lastRetrainTime := now } := by
    rw [analyze_valid rnd scan now reqId url options st hv, hret]
    dsimp only
    rw [if_pos rfl]
  rw [heq]
  obtain ⟨s1, s2, s3, s4, s5⟩ := scoreStage_state scan reqId url options
    (extractFeatures url options st.requestFrequency)
    { recordRequest url (extractFeatures url options st.requestFrequency) st with
        isolationForest := some (⟨200, 512, 15,
          (buildTrees rnd 200 512 15 (recordRequest url
            (extractFeatures url options st.requestFrequency) st).networkRequests).1⟩ :
            IsolationForestModel),
        lastRetrainTime := now }
  rw [s1, s2]
  exact ⟨hlen2, rfl, hT1, hT2⟩

theorem shouldRetrain_100 (st : Telemetry) (now : ℤ)
    (h : shouldRetrain st now = true) : 100 ≤ st.networkRequests.length := by
  simp only [shouldRetrain, Bool.and_eq_true, decide_eq_true_eq] at h
  exact h.1

theorem analyze_noretrain_eq (rnd : Rand) (scan : String → List String)
    (now : ℤ) (reqId url : String) (options : RequestOptions) (st : Telemetry)
    (hv : isValidUrl url = true)
    (hsr : shouldRetrain
      (recordRequest url (extractFeatures url options st.requestFrequency) st) now =
      false) :
    analyzeNetworkRequest rnd scan now reqId url options st =
      scoreStage scan reqId url options
        (extractFeatures url options st.requestFrequency)
        (recordRequest url (extractFeatures url options st.requestFrequency) st) := by
  rw [analyze_valid rnd scan now reqId url options st hv,
    stageRetrain_off rnd now _ hsr]
  dsimp only
  rw [if_pos rfl]

set_option maxRecDepth 10000 in
set_option maxHeartbeats 1000000 in
theorem analyze_preserves_inv (rnd : Rand) (scan : String → List String)
    (now : ℤ) (reqId url : String) (options : RequestOptions) {st : Telemetry}
    (h : EngineInv st) :
    EngineInv (analyzeNetworkRequest rnd scan now reqId url options st).1 := by
  obtain ⟨hb1, hb2⟩ := analyze_step_bounds rnd scan now reqId url options h.1 h.2.1
  refine ⟨hb1, hb2, ?_⟩
  by_cases hv : isValidUrl url = true
  · obtain ⟨q1, q2, q3, q4, q5, q6⟩ := recordRequest_state url
      (extractFeatures url options st.requestFrequency) st
    have hlen2 : st.networkRequests.length ≤
        (recordRequest url (extractFeatures url options st.requestFrequency)
          st).networkRequests.length := by
      rw [q1]; exact pushCapped_mono _ _ _
    by_cases hsr : shouldRetrain
        (recordRequest url (extractFeatures url options st.requestFrequency) st) now = true
    · have h100 := shouldRetrain_100 _ now hsr
      have hne : (recordRequest url (extractFeatures url options st.requestFrequency)
          st).networkRequests ≠ [] := by
        intro e; rw [e] at h100; simp at h100
      obtain ⟨hT2, hT1⟩ := buildTrees_nonempty rnd 200 512 15 hne
      have hret : stageRetrain rnd now
          (recordRequest url (extractFeatures url options st.requestFrequency) st) =
          ({ recordRequest url (extractFeatures url options st.requestFrequency) st with
              isolationForest := some (⟨200, 512, 15,
                (buildTrees rnd 200 512 15 (recordRequest url
                  (extractFeatures url options st.requestFrequency) st).networkRequests).1⟩ :
                  IsolationForestModel),
              lastRetrainTime := now }, true) := by
        rw [stageRetrain_on rnd now _ hsr, hT2]
        simp
      have heq : analyzeNetworkRequest rnd scan now reqId url options st =
          scoreStage scan reqId url options
            (extractFeatures url options st.requestFrequency)
            { recordRequest url (extractFeatures url options st.requestFrequency) st with
                isolationForest := some (⟨200, 512, 15,
                  (buildTrees rnd 200 512 15 (recordRequest url
                    (extractFeatures url options st.requestFrequency) st).networkRequests).1⟩ :
                    IsolationForestModel),
                lastRetrainTime := now } := by
        rw [analyze_valid rnd scan now reqId url options st hv, hret]
        dsimp only
        rw [if_pos rfl]
      rw [heq]
      obtain ⟨s1, s2, s3, s4, s5⟩ := scoreStage_state scan reqId url options
        (extractFeatures url options st.requestFrequency)
        { recordRequest url (extractFeatures url options st.requestFrequency) st with
            isolationForest := some (⟨200, 512, 15,
              (buildTrees rnd 200 512 15 (recordRequest url
                (extractFeatures url options st.requestFrequency) st).networkRequests).1⟩ :
                IsolationForestModel),
            lastRetrainTime := now }
      intro m hm
      rw [s2] at hm
      have hm2 : m = ⟨200, 512, 15,
          (buildTrees rnd 200 512 15 (recordRequest url
            (extractFeatures url options st.requestFrequency) st).networkRequests).1⟩ := by
        simpa using hm.symm
      subst hm2
      rw [s1]
      exact ⟨h100, rfl, rfl, rfl, hT1⟩
    · rw [analyze_noretrain_eq rnd scan now reqId url options st hv
        (by simpa using hsr)]
      obtain ⟨s1, s2, s3, s4, s5⟩ := scoreStage_state scan reqId url options
        (extractFeatures url options st.requestFrequency)
        (recordRequest url (extractFeatures url options st.requestFrequency) st)
      intro m hm
      rw [s2, q2] at hm
      obtain ⟨hl, hftr⟩ := h.2.2 m hm
      rw [s1]
      exact ⟨by omega, hftr⟩
  · rw [analyze_invalid rnd scan now reqId url options st (by simpa using hv)]
    exact h.2.2

theorem runIngests_inv (inputs : List Ingest) :
    ∀ (st : Telemetry), EngineInv st → EngineInv (runIngests inputs st).1 := by
  induction inputs with
  | nil => intro st h; simpa [runIngests] using h
  | cons j rest ih =>
    intro st h
    rw [runIngests_cons]
    exact ih _ (analyze_preserves_inv j.rnd j.scan j.now j.reqId j.url j.options h)

theorem initial_inv (now0 : ℤ) : EngineInv (initializeTelemetryData now0) := by
  refine ⟨by simp [initializeTelemetryData], by simp [initializeTelemetryData], ?_⟩
  intro m hm
  simp [initializeTelemetryData] at hm

/-- Claim C5: (i) under the reachable-state invariant (a model only exists
once the history has reached 100 entries), the retrain trigger fires exactly
when either no model exists and the history has reached 100 entries, or a
model exists and more than one hour (3,600,000 ms) has passed since the last
retrain; (ii) after at most 99 ingests from the initial state no model
exists and no AnomalyFinding has been emitted; (iii) after 99 valid ingests,
the 100th valid ingest trains a model on the entire current bounded request
history (all 100 entries) and stores all 200 trees; (iv) along every ingest
sequence the stored model is never a partially built forest: it is absent or
holds exactly its configured 200 fully built trees (atomic replacement). -/
theorem C5_retrain_policy (now0 : ℤ) :
    (∀ (st : Telemetry) (now : ℤ),
      (∀ m, st.isolationForest = some m → 100 ≤ st.networkRequests.length) →
      (shouldRetrain st now = true ↔
        (st.isolationForest = none ∧ 100 ≤ st.networkRequests.length) ∨
        (st.isolationForest ≠ none ∧ 3600000 < now - st.lastRetrainTime))) ∧
    (∀ inputs : List Ingest, inputs.length ≤ 99 →
      (runIngests inputs (initializeTelemetryData now0)).1.isolationForest = none ∧
      (runIngests inputs (initializeTelemetryData now0)).2.all
        (fun f => !isAnomaly f) = true) ∧
    (∀ (pre : List Ingest) (j : Ingest), pre.length = 99 →
      (∀ i ∈ pre ++ [j], isValidUrl i.url = true) →
      (runIngests (pre ++ [j]) (initializeTelemetryData now0)).1.networkRequests.length =
        100 ∧
      (runIngests (pre ++ [j]) (initializeTelemetryData now0)).1.isolationForest =
        some (⟨200, 512, 15, (buildTrees j.rnd 200 512 15
          (runIngests (pre ++ [j])
            (initializeTelemetryData now0)).1.networkRequests).1⟩ :
          IsolationForestModel) ∧
      (buildTrees j.rnd 200 512 15
        (runIngests (pre ++ [j])
          (initializeTelemetryData now0)).1.networkRequests).1.length = 200) ∧
    (∀ inputs : List Ingest,
      (runIngests inputs (initializeTelemetryData now0)).1.isolationForest = none ∨
      ∃ m, (runIngests inputs (initializeTelemetryData now0)).1.isolationForest =
        some m ∧ fullyTrained m) := by
  refine ⟨fun st now hinv => shouldRetrain_iff st now hinv, ?_, ?_, ?_⟩
  · intro inputs hlen
    obtain ⟨h1, _, h3⟩ := runIngests_noModel inputs (initializeTelemetryData now0)
      (by simp [initializeTelemetryData]) (by simp [initializeTelemetryData]; omega)
    exact ⟨h1, h3⟩
  · intro pre j hpre hval
    have hsingle : ∀ st : Telemetry, (runIngests [j] st).1 =
        (analyzeNetworkRequest j.rnd j.scan j.now j.reqId j.url j.options st).1 := by
      intro st
      rw [runIngests_cons]
      simp [runIngests]
    obtain ⟨m1, m2⟩ := runIngests_noModel_valid pre (initializeTelemetryData now0)
      (by simp [initializeTelemetryData])
      (fun i hi => hval i (List.mem_append_left _ hi))
      (by simp [initializeTelemetryData]; omega)
    have hm2 : (runIngests pre (initializeTelemetryData now0)).1.networkRequests.length =
        99 := by
      rw [m2]; simp [initializeTelemetryData, hpre]
    have hvj : isValidUrl j.url = true :=
      hval j (List.mem_append_right _ (List.mem_singleton_self j))
    obtain ⟨g1, g2, g3, _⟩ := analyze_step_train j.rnd j.scan j.now j.reqId j.url
      j.options m1 hm2 hvj
    rw [runIngests_append pre [j] (initializeTelemetryData now0)]
    dsimp only
    rw [hsingle]
    exact ⟨g1, g2, g3⟩
  · intro inputs
    have h := runIngests_inv inputs (initializeTelemetryData now0) (initial_inv now0)
    cases hf : (runIngests inputs (initializeTelemetryData now0)).1.isolationForest with
    | none => exact Or.inl rfl
    | some m => exact Or.inr ⟨m, rfl, (h.2.2 m hf).2⟩

/-- Witness for C5: the initial state for the trigger equivalence, 99 then
99+1 copies of a concrete valid ingest for the training scenario, and the
empty sequence for the never-partially-built invariant. -/
theorem C5_retrain_policy_witness :
    (shouldRetrain (initializeTelemetryData 0) 0 = true ↔
      ((initializeTelemetryData 0).isolationForest = none ∧
        100 ≤ (initializeTelemetryData 0).networkRequests.length) ∨
      ((initializeTelemetryData 0).isolationForest ≠ none ∧
        3600000 < 0 - (initializeTelemetryData 0).lastRetrainTime)) ∧
    ((runIngests (List.replicate 99 ingest0)
        (initializeTelemetryData 0)).1.isolationForest = none ∧
      (runIngests (List.replicate 99 ingest0) (initializeTelemetryData 0)).2.all
        (fun f => !isAnomaly f) = true) ∧
    ((runIngests (List.replicate 99 ingest0 ++ [ingest0])
        (initializeTelemetryData 0)).1.networkRequests.length = 100 ∧
      (runIngests (List.replicate 99 ingest0 ++ [ingest0])
        (initializeTelemetryData 0)).1.isolationForest =
        some (⟨200, 512, 15, (buildTrees ingest0.rnd 200 512 15
          (runIngests (List.replicate 99 ingest0 ++ [ingest0])
            (initializeTelemetryData 0)).1.networkRequests).1⟩ :
          IsolationForestModel) ∧
      (buildTrees ingest0.rnd 200 512 15
        (runIngests (List.replicate 99 ingest0 ++ [ingest0])
          (initializeTelemetryData 0)).1.networkRequests).1.length = 200) ∧
    ((runIngests [] (initializeTelemetryData 0)).1.isolationForest = none ∨
      ∃ m, (runIngests [] (initializeTelemetryData 0)).1.isolationForest = some m ∧
        fullyTrained m) := by
  obtain ⟨p1, p2, p3, p4⟩ := C5_retrain_policy 0
  have hval : ∀ i ∈ List.replicate 99 ingest0 ++ [ingest0], isValidUrl i.url = true := by
    intro i hi
    have : i = ingest0 := by
      rcases List.mem_append.mp hi with h | h
      · exact List.eq_of_mem_replicate h
      · simpa using h
    subst this
    with_unfolding_all rfl
  exact ⟨p1 (initializeTelemetryData 0) 0
      (fun m hm => by simp [initializeTelemetryData] at hm),
    p2 (List.replicate 99 ingest0) (by simp),
    p3 (List.replicate 99 ingest0) ingest0 (by simp) hval,
    p4 []⟩

theorem analyze_noModel_eq (rnd : Rand) (scan : String → List String) (now : ℤ)
    (reqId url : String) (options : RequestOptions) (st : Telemetry)
    (hv : isValidUrl url = true) (hf : st.isolationForest = none)
    (hlen : st.networkRequests.length ≤ 98) :
    analyzeNetworkRequest rnd scan now reqId url options st =
      afterScoring scan reqId url options
        (recordRequest url (extractFeatures url options st.requestFrequency) st) [] := by
  obtain ⟨q1, q2, q3, q4, q5, q6⟩ := recordRequest_state url
    (extractFeatures url options st.requestFrequency) st
  have hlen2 : (recordRequest url (extractFeatures url options st.requestFrequency)
      st).networkRequests.length ≤ st.networkRequests.length + 1 := by
    rw [q1, pushCapped_length]
    split <;> omega
  have hsr : shouldRetrain
      (recordRequest url (extractFeatures url options st.requestFrequency) st) now =
      false := by
    simp only [shouldRetrain, Bool.and_eq_false_iff, decide_eq_false_iff_not]
    left
    omega
  rw [analyze_noretrain_eq rnd scan now reqId url options st hv hsr,
    scoreStage_no_model scan reqId url options _ _ (by rw [q2, hf])]

/-- Claim C2, counterexample: with a model whose tree has a depth-capped
leaf of size 2 (a reachable training outcome, see C1), one ingest of a valid
URL with a fresh parameter signature fails in the scoring step
(`predictAvg = none`), and then the repetitive-request check, identifier
scan and persistence of that same ingest do NOT execute: the unseen
signature is not recorded (the signature set of the base URL stays empty)
and no finding of any kind is emitted — contradicting the claim that only
the failing step is skipped. -/
theorem C2_step_failure_skips_rest :
    predictAvg leafTwoForest
      (extractFeatures "https://example.com/a?x=1" opts0
        stLeafTwo.requestFrequency) = none ∧
    (analyzeNetworkRequest rnd0 scan0 0 "req-1" "https://example.com/a?x=1" opts0
      stLeafTwo).1.repetitiveRequests "https://example.com/a" = [] ∧
    (analyzeNetworkRequest rnd0 scan0 0 "req-1" "https://example.com/a?x=1" opts0
      stLeafTwo).2 = [] := by
  refine ⟨?_, ?_, ?_⟩ <;> with_unfolding_all rfl

/-- Claim C2 as amended: a failure in a step makes the ingest-wide
`try/catch` abort all remaining steps of that ingest — the state keeps the
mutations made before the failure (here: the history push and frequency
bump of `recordRequest`) but the score, repetition and identifier steps are
skipped and no finding is emitted — while the failure never propagates to
the host and later ingests proceed from the returned state. -/
theorem C2_failure_aborts_ingest (rnd : Rand) (scan : String → List String)
    (now : ℤ) (reqId url : String) (options : RequestOptions) (st : Telemetry)
    (m : IsolationForestModel) (hv : isValidUrl url = true)
    (hsr : shouldRetrain
      (recordRequest url (extractFeatures url options st.requestFrequency) st) now =
      false)
    (hm : st.isolationForest = some m)
    (hp : predictAvg m (extractFeatures url options st.requestFrequency) = none) :
    analyzeNetworkRequest rnd scan now reqId url options st =
      (recordRequest url (extractFeatures url options st.requestFrequency) st, []) := by
  rw [analyze_noretrain_eq rnd scan now reqId url options st hv hsr]
  exact scoreStage_crash scan reqId url options _ _ m
    (by rw [(recordRequest_state url _ st).2.1, hm]) hp

/-- Witness for the amended C2 at the concrete crashing state. -/
theorem C2_failure_aborts_ingest_witness :
    analyzeNetworkRequest rnd0 scan0 0 "req-1" "https://example.com/a?x=1" opts0
      stLeafTwo =
      (recordRequest "https://example.com/a?x=1"
        (extractFeatures "https://example.com/a?x=1" opts0
          stLeafTwo.requestFrequency) stLeafTwo, []) :=
  C2_failure_aborts_ingest rnd0 scan0 0 "req-1" "https://example.com/a?x=1" opts0
    stLeafTwo leafTwoForest (by with_unfolding_all rfl)
    (by with_unfolding_all rfl) rfl (by with_unfolding_all rfl)

/-- Claim C8: in the model-free regime (no scoring step can fail), ingesting
a base URL with an unseen parameter signature emits no RepetitionFinding and
records the signature; a second ingest of the same base URL with the
identical signature emits a RepetitionFinding; a second ingest of the same
base URL with a different (still unseen) signature emits none and records
the new signature. -/
theorem C8_repetition (rnd rnd2 : Rand) (scan scan2 : String → List String)
    (now now2 : ℤ) (reqId reqId2 url1 url2 : String)
    (options options2 : RequestOptions) (st : Telemetry)
    (hv1 : isValidUrl url1 = true) (hv2 : isValidUrl url2 = true)
    (hbase : jsSplitFirst url2 = jsSplitFirst url1)
    (hf : st.isolationForest = none)
    (hlen : st.networkRequests.length ≤ 97)
    (hunseen : paramSignature (jsSplitSecond url1) ∉
      st.repetitiveRequests (jsSplitFirst url1)) :
    ((analyzeNetworkRequest rnd scan now reqId url1 options st).2.all
      (fun f => !isRepetition f) = true) ∧
    (paramSignature (jsSplitSecond url1) ∈
      (analyzeNetworkRequest rnd scan now reqId url1 options st).1.repetitiveRequests
        (jsSplitFirst url1)) ∧
    (paramSignature (jsSplitSecond url2) = paramSignature (jsSplitSecond url1) →
      (analyzeNetworkRequest rnd2 scan2 now2 reqId2 url2 options2
        (analyzeNetworkRequest rnd scan now reqId url1 options st).1).2.any
        isRepetition = true) ∧
    (paramSignature (jsSplitSecond url2) ≠ paramSignature (jsSplitSecond url1) →
      paramSignature (jsSplitSecond url2) ∉
        st.repetitiveRequests (jsSplitFirst url1) →
      ((analyzeNetworkRequest rnd2 scan2 now2 reqId2 url2 options2
          (analyzeNetworkRequest rnd scan now reqId url1 options st).1).2.all
        (fun f => !isRepetition f) = true) ∧
      paramSignature (jsSplitSecond url2) ∈
        (analyzeNetworkRequest rnd2 scan2 now2 reqId2 url2 options2
          (analyzeNetworkRequest rnd scan now reqId url1 options st).1).1.repetitiveRequests
          (jsSplitFirst url1)) := by
  obtain ⟨q1, q2, q3, q4, q5, q6⟩ := recordRequest_state url1
    (extractFeatures url1 options st.requestFrequency) st
  have hmem2 : paramSignature (jsSplitSecond url1) ∉
      (recordRequest url1 (extractFeatures url1 options st.requestFrequency)
        st).repetitiveRequests (jsSplitFirst url1) := by
    rw [q4]; exact hunseen
  have hpost1 : analyzeNetworkRequest rnd scan now reqId url1 options st =
      ({ recordRequest url1 (extractFeatures url1 options st.requestFrequency) st with
          repetitiveRequests := fun k =>
            if k = jsSplitFirst url1
            then paramSignature (jsSplitSecond url1) ::
              (recordRequest url1 (extractFeatures url1 options st.requestFrequency)
                st).repetitiveRequests k
            else (recordRequest url1 (extractFeatures url1 options st.requestFrequency)
              st).repetitiveRequests k },
       ([] ++ []) ++
        (if scan (jsBody options.body) = [] then []
         else [Finding.identifier reqId url1 (scan (jsBody options.body))])) := by
    rw [analyze_noModel_eq rnd scan now reqId url1 options st hv1 hf (by omega),
      afterScoring_eq, if_neg hmem2, if_neg hmem2]
  have hc1 : (analyzeNetworkRequest rnd scan now reqId url1 options st).2.all
      (fun f => !isRepetition f) = true := by
    rw [hpost1]
    dsimp only
    split <;> simp [isRepetition]
  have hc2 : paramSignature (jsSplitSecond url1) ∈
      (analyzeNetworkRequest rnd scan now reqId url1 options st).1.repetitiveRequests
        (jsSplitFirst url1) := by
    rw [hpost1]
    dsimp only
    rw [if_pos rfl]
    exact List.mem_cons_self _ _
  -- the second ingest
  have hf1 : (analyzeNetworkRequest rnd scan now reqId url1 options
      st).1.isolationForest = none := by
    rw [hpost1]
    dsimp only
    rw [q2]
    exact hf
  have hlen1 : (analyzeNetworkRequest rnd scan now reqId url1 options
      st).1.networkRequests.length ≤ 98 := by
    rw [hpost1]
    dsimp only
    rw [q1, pushCapped_length]
    split <;> omega
  have e2 := analyze_noModel_eq rnd2 scan2 now2 reqId2 url2 options2
    (analyzeNetworkRequest rnd scan now reqId url1 options st).1 hv2 hf1 hlen1
  obtain ⟨w1, w2, w3, w4, w5, w6⟩ := recordRequest_state url2
    (extractFeatures url2 options2
      (analyzeNetworkRequest rnd scan now reqId url1 options st).1.requestFrequency)
    (analyzeNetworkRequest rnd scan now reqId url1 options st).1
  have hrep3 : (recordRequest url2
      (extractFeatures url2 options2
        (analyzeNetworkRequest rnd scan now reqId url1 options st).1.requestFrequency)
      (analyzeNetworkRequest rnd scan now reqId url1 options
        st).1).repetitiveRequests (jsSplitFirst url2) =
      paramSignature (jsSplitSecond url1) :: st.repetitiveRequests (jsSplitFirst url1) := by
    rw [w4, hbase, hpost1]
    dsimp only
    rw [if_pos rfl, q4]
  refine ⟨hc1, hc2, ?_, ?_⟩
  · intro hsig
    have hseen : paramSignature (jsSplitSecond url2) ∈
        (recordRequest url2
          (extractFeatures url2 options2
            (analyzeNetworkRequest rnd scan now reqId url1 options
              st).1.requestFrequency)
          (analyzeNetworkRequest rnd scan now reqId url1 options
            st).1).repetitiveRequests (jsSplitFirst url2) := by
      rw [hrep3, hsig]
      exact List.mem_cons_self _ _
    rw [e2, afterScoring_eq, if_pos hseen]
    dsimp only
    rw [if_pos hseen]
    simp [isRepetition]
  · intro hsig hunseen2
    have hseen : paramSignature (jsSplitSecond url2) ∉
        (recordRequest url2
          (extractFeatures url2 options2
            (analyzeNetworkRequest rnd scan now reqId url1 options
              st).1.requestFrequency)
          (analyzeNetworkRequest rnd scan now reqId url1 options
            st).1).repetitiveRequests (jsSplitFirst url2) := by
      rw [hrep3]
      intro hmem
      rcases List.mem_cons.mp hmem with h | h
      · exact hsig h
      · exact hunseen2 h
    constructor
    · rw [e2, afterScoring_eq, if_neg hseen]
      dsimp only
      rw [if_neg hseen]
      split <;> simp [isRepetition]
    · rw [e2, afterScoring_eq, if_neg hseen]
      dsimp only
      rw [← hbase, if_pos rfl]
      exact List.mem_cons_self _ _

/-- Witness for C8: the same URL (base `https://example.com/a`, signature
`x,1`) ingested twice into the fresh state. -/
theorem C8_repetition_witness :
    ((analyzeNetworkRequest rnd0 scan0 0 "req-1" "https://example.com/a?x=1" opts0
      (initializeTelemetryData 0)).2.all (fun f => !isRepetition f) = true) ∧
    (paramSignature (jsSplitSecond "https://example.com/a?x=1") ∈
      (analyzeNetworkRequest rnd0 scan0 0 "req-1" "https://example.com/a?x=1" opts0
        (initializeTelemetryData 0)).1.repetitiveRequests
        (jsSplitFirst "https://example.com/a?x=1")) ∧
    (paramSignature (jsSplitSecond "https://example.com/a?x=1") =
        paramSignature (jsSplitSecond "https://example.com/a?x=1") →
      (analyzeNetworkRequest rnd0 scan0 1 "req-2" "https://example.com/a?x=1" opts0
        (analyzeNetworkRequest rnd0 scan0 0 "req-1" "https://example.com/a?x=1" opts0
          (initializeTelemetryData 0)).1).2.any isRepetition = true) ∧
    (paramSignature (jsSplitSecond "https://example.com/a?x=1") ≠
        paramSignature (jsSplitSecond "https://example.com/a?x=1") →
      paramSignature (jsSplitSecond "https://example.com/a?x=1") ∉
        (initializeTelemetryData 0).repetitiveRequests
          (jsSplitFirst "https://example.com/a?x=1") →
      ((analyzeNetworkRequest rnd0 scan0 1 "req-2" "https://example.com/a?x=1" opts0
          (analyzeNetworkRequest rnd0 scan0 0 "req-1" "https://example.com/a?x=1" opts0
            (initializeTelemetryData 0)).1).2.all (fun f => !isRepetition f) = true) ∧
      paramSignature (jsSplitSecond "https://example.com/a?x=1") ∈
        (analyzeNetworkRequest rnd0 scan0 1 "req-2" "https://example.com/a?x=1" opts0
          (analyzeNetworkRequest rnd0 scan0 0 "req-1" "https://example.com/a?x=1" opts0
            (initializeTelemetryData 0)).1).1.repetitiveRequests
          (jsSplitFirst "https://example.com/a?x=1")) :=
  C8_repetition rnd0 rnd0 scan0 scan0 0 1 "req-1" "req-2"
    "https://example.com/a?x=1" "https://example.com/a?x=1" opts0 opts0
    (initializeTelemetryData 0) (by with_unfolding_all rfl)
    (by with_unfolding_all rfl) rfl rfl (by simp [initializeTelemetryData])
    (by simp [initializeTelemetryData])

/-- Claim C9, counterexample: ingest `https://example.com` once — the
frequency map then records count 1 for the request's base URL
`https://example.com` (the URL minus its query string) — and extract
features for the same descriptor again: the 11th feature is 0, not 1,
because `extractFeatures` looks the count up under the *normalised* key
`parsedUrl.href.split("?")[0] = "https://example.com/"`, which the engine
never increments. -/
theorem C9_feature11_counterexample :
    (analyzeNetworkRequest rnd0 scan0 0 "req-1" "https://example.com" opts0
      (initializeTelemetryData 0)).1.requestFrequency "https://example.com" = 1 ∧
    (extractFeatures "https://example.com" opts0
      (analyzeNetworkRequest rnd0 scan0 0 "req-1" "https://example.com" opts0
        (initializeTelemetryData 0)).1.requestFrequency).getD 10 0 = 0 := by
  refine ⟨?_, ?_⟩ <;> with_unfolding_all rfl

/-- Claim C9 as amended: the 11th feature equals the frequency-map count,
*at the time of extraction and before this ingest's increment*, of the base
of the normalised URL (`parsedUrl.href` minus its query string) — which
coincides with the engine's own key `url.split("?")[0]` only when the URL is
already in normalised form; extraction itself never mutates the map (it is a
pure function of it), and the engine's increment touches exactly the key
`url.split("?")[0]`. -/
theorem C9_feature11_amended (rnd : Rand) (scan : String → List String)
    (now : ℤ) (reqId url : String) (options : RequestOptions) (st : Telemetry)
    (pu : ParsedUrl) (hp : parseUrl url = some pu)
    (hv : isValidUrl url = true) :
    (extractFeatures url options st.requestFrequency).getD 10 0 =
      ((st.requestFrequency (jsSplitFirst pu.href) : ℕ) : ℚ) ∧
    ((analyzeNetworkRequest rnd scan now reqId url options st).1.requestFrequency
        (jsSplitFirst url) =
      st.requestFrequency (jsSplitFirst url) + 1) ∧
    (∀ k, k ≠ jsSplitFirst url →
      (analyzeNetworkRequest rnd scan now reqId url options st).1.requestFrequency k =
        st.requestFrequency k) := by
  obtain ⟨q1, q2, q3, q4, q5, q6⟩ := recordRequest_state url
    (extractFeatures url options st.requestFrequency) st
  have hfreq : (analyzeNetworkRequest rnd scan now reqId url options
      st).1.requestFrequency =
      (recordRequest url (extractFeatures url options st.requestFrequency)
        st).requestFrequency := by
    rw [analyze_valid rnd scan now reqId url options st hv]
    obtain ⟨r1, r2, r3, r4⟩ := stageRetrain_state rnd now
      (recordRequest url (extractFeatures url options st.requestFrequency) st)
    split
    · obtain ⟨s1, s2, s3, s4, s5⟩ := scoreStage_state scan reqId url options
        (extractFeatures url options st.requestFrequency)
        (stageRetrain rnd now
          (recordRequest url (extractFeatures url options st.requestFrequency) st)).1
      rw [s4, r4]
    · exact r4
  refine ⟨?_, ?_, ?_⟩
  · rw [extractFeatures, hp]
    rfl
  · rw [hfreq, q6]
    dsimp only
    rw [if_pos rfl]
  · intro k hk
    rw [hfreq, q6]
    dsimp only
    rw [if_neg hk]

/-- Witness for the amended C9 at `https://example.com/a?x=1` (whose href
base is `https://example.com/a`) over the fresh state. -/
theorem C9_feature11_amended_witness :
    (extractFeatures "https://example.com/a?x=1" opts0
      (initializeTelemetryData 0).requestFrequency).getD 10 0 =
      (((initializeTelemetryData 0).requestFrequency
        (jsSplitFirst (ParsedUrl.mk "example.com" "/a" "x=1"
          "https://example.com/a?x=1").href) : ℕ) : ℚ) ∧
    ((analyzeNetworkRequest rnd0 scan0 0 "req-1" "https://example.com/a?x=1" opts0
        (initializeTelemetryData 0)).1.requestFrequency
        (jsSplitFirst "https://example.com/a?x=1") =
      (initializeTelemetryData 0).requestFrequency
        (jsSplitFirst "https://example.com/a?x=1") + 1) ∧
    (∀ k, k ≠ jsSplitFirst "https://example.com/a?x=1" →
      (analyzeNetworkRequest rnd0 scan0 0 "req-1" "https://example.com/a?x=1" opts0
        (initializeTelemetryData 0)).1.requestFrequency k =
        (initializeTelemetryData 0).requestFrequency k) :=
  C9_feature11_amended rnd0 scan0 0 "req-1" "https://example.com/a?x=1" opts0
    (initializeTelemetryData 0)
    (ParsedUrl.mk "example.com" "/a" "x=1" "https://example.com/a?x=1")
    (by with_unfolding_all rfl) (by with_unfolding_all rfl)

/-- Claim C10: the third feature is the length of the JSON serialisation of
the (defaulted) body, not of the raw body text; for a descriptor with no
body or an empty-string body the default `""` is serialised to the
two-character string `""`, so the feature is 2, never 0. -/
theorem C10_body_feature (url : String) (options : RequestOptions)
    (freq : String → ℕ) (hv : isValidUrl url = true) :
    (extractFeatures url options freq).getD 2 0 =
      (((jsonStringify (options.body.getD "")).length : ℕ) : ℚ) ∧
    (options.body = none ∨ options.body = some "" →
      (extractFeatures url options freq).getD 2 0 = 2) := by
  obtain ⟨pu, hp⟩ := Option.isSome_iff_exists.mp (by simpa [isValidUrl] using hv)
  have h1 : (extractFeatures url options freq).getD 2 0 =
      (((jsonStringify (options.body.getD "")).length : ℕ) : ℚ) := by
    rw [extractFeatures, hp]
    rfl
  refine ⟨h1, ?_⟩
  rintro (h | h) <;> rw [h1, h] <;> rfl

/-- Witness for C10 at a bodyless descriptor and at an empty-string body. -/
theorem C10_body_feature_witness :
    ((extractFeatures "https://example.com/a" opts0 (fun _ => 0)).getD 2 0 =
      (((jsonStringify ((opts0.body).getD "")).length : ℕ) : ℚ) ∧
    (opts0.body = none ∨ opts0.body = some "" →
      (extractFeatures "https://example.com/a" opts0 (fun _ => 0)).getD 2 0 = 2)) ∧
    (opts0.body = none ∨ opts0.body = some "") :=
  ⟨C10_body_feature "https://example.com/a" opts0 (fun _ => 0)
    (by with_unfolding_all rfl), Or.inl rfl⟩

end Abnormalie
